import Mathlib

/-!
# The Storj gateway for minio (`pkg/miniogw/gateway-storj.go`)

A shallow embedding of the gateway's bucket and object operations, and of the
two listing calls `ListObjects` (marker based) and `ListObjectsV2`
(continuation-token based), together with theorems about them.

The gateway talks to two collaborators, the bucket store and the per-bucket
object store. Both are interfaces: they are a parameter (`Backend`) of every
operation, and every call the gateway makes on them is recorded, in order, in
the `calls` log of the `World` the operation runs in.

Go values are embedded as follows: an `error` is an `Option Error` (`none` is
`nil`), a slice is a `List` (the nil slice is `[]`), a `map[string]string` is
an association list, `int` and `int64` are `Int`, a `time.Time` is a `Nat`
(`0` is the zero time), a byte stream is the list of its bytes.
-/

namespace miniogw

/-! ## Data model -/

/-- A Go `error` value that is not nil. `storage` is an error produced by a
collaborator; its flag says whether the error belongs to the class
`storage.ErrKeyNotFound`. `gateway` is an error of the class `Error` declared
by the gateway (`Error.New`). The remaining constructors are the minio error
values the gateway builds. -/
inductive Error where
  | storage (keyNotFound : Bool) (msg : String)
  | gateway (msg : String)
  | BucketNotFound (Bucket : String)
  | BucketNotEmpty (Bucket : String)
  | BucketAlreadyExists (Bucket : String)
  | ObjectNotFound (Bucket : String) (Object : String)
  deriving DecidableEq, Repr

/-- The test `storage.ErrKeyNotFound.Has(err)`; it is false on the nil error. -/
def ErrKeyNotFound.Has : Option Error → Bool
  | some (Error.storage b _) => b
  | _ => false

/-- A `time.Time`; `0` is the zero value `time.Time{}`. -/
abbrev Time := Nat

/-- A `map[string]string`. -/
abbrev StrMap := List (String × String)

/-- The bytes of a stream (`io.Reader`). -/
abbrev ByteStream := List Nat

/-- The map read `m[k]`: the value stored under `k`, the empty string when the
key is absent. -/
def StrMap.index (m : StrMap) (k : String) : String :=
  (m.lookup k).getD ""

/-- The builtin `delete(m, k)`. -/
def StrMap.delete (m : StrMap) (k : String) : StrMap :=
  m.filter (fun kv => kv.1 != k)

/-- Modelled from the spec: package `paths` is not among the sources. A path is
"an ordered sequence of string segments" with "a canonical string form using
`/` as separator"; the gateway uses three operations on it, `paths.New`,
`Path.String` and `Path.Prepend`, which are taken as they come. `paths.New`
builds a path value, never the nil slice ("if the token decodes to an empty
value, listing starts from the beginning"); the nil path of the Go code is
`none : Option P`. -/
structure PathOps (P : Type) where
  New : String → P
  Prepend : P → String → P
  String : P → String

/-- The record `objects.SerializableMeta`. -/
structure SerializableMeta where
  ContentType : String := ""
  UserDefined : StrMap := []
  deriving DecidableEq, Repr

/-- The record `objects.Meta`. -/
structure Meta where
  Modified : Time := 0
  Expiration : Time := 0
  Size : Int := 0
  Checksum : String := ""
  ContentType : String := ""
  UserDefined : StrMap := []
  deriving DecidableEq, Repr

/-- The record `objects.ListItem`. -/
structure ListItem (P : Type) where
  Path : P
  Meta : Meta := {}
  IsPrefix : Bool := false
  deriving DecidableEq

/-- The record `buckets.Meta`. -/
structure BucketMeta where
  Created : Time := 0
  deriving DecidableEq, Repr

/-- The record `buckets.ListItem`. -/
structure BucketListItem where
  Bucket : String
  Meta : BucketMeta := {}
  deriving DecidableEq, Repr

/-- The fields of `minio.BucketInfo`. -/
structure BucketInfo where
  Name : String := ""
  Created : Time := 0
  deriving DecidableEq, Repr

/-- The fields of `minio.ObjectInfo` the gateway sets. -/
structure ObjectInfo where
  Bucket : String := ""
  Name : String := ""
  ModTime : Time := 0
  Size : Int := 0
  IsDir : Bool := false
  ETag : String := ""
  ContentType : String := ""
  UserDefined : StrMap := []
  deriving DecidableEq, Repr

/-- The fields of `minio.ListObjectsInfo`. -/
structure ListObjectsInfo where
  IsTruncated : Bool := false
  NextMarker : String := ""
  Objects : List ObjectInfo := []
  Prefixes : List String := []
  deriving DecidableEq, Repr

/-- The fields of `minio.ListObjectsV2Info`. -/
structure ListObjectsV2Info where
  IsTruncated : Bool := false
  ContinuationToken : String := ""
  NextContinuationToken : String := ""
  Objects : List ObjectInfo := []
  Prefixes : List String := []
  deriving DecidableEq, Repr

/-- The two constants of package `meta` the gateway passes to `List`. -/
inductive MetaFlags where
  | None
  | All
  deriving DecidableEq, Repr

/-- A `ranger.Ranger`: its `Size()` and its `Range(offset, length)`. -/
structure Ranger where
  Size : Int
  Range : Int → Int → ByteStream × Option Error

/-! ## The collaborators -/

/-- One call on a collaborator, with its arguments. `bs…` are the methods of
the bucket store (`buckets.Store`), `os…` those of an object store
(`objects.Store`), whose handle is the first argument; `rrRange` is the method
`Range` of a ranger, and `ioCopy` the copy `io.Copy` makes of a stream to the
writer of the caller. -/
inductive Call (P H : Type) where
  | bsGet (bucket : String)
  | bsPut (bucket : String)
  | bsDelete (bucket : String)
  | bsList (startAfter : String) (endBefore : String) (limit : Int)
  | bsGetObjectStore (bucket : String)
  | osList (o : H) (pfx : Option P) (startAfter : Option P) (endBefore : Option P)
      (recursive : Bool) (limit : Int) (metaFlags : MetaFlags)
  | osGet (o : H) (path : P)
  | osPut (o : H) (path : P) (data : ByteStream) (metadata : SerializableMeta)
      (expiration : Time)
  | osDelete (o : H) (path : P)
  | osMeta (o : H) (path : P)
  | rrRange (offset : Int) (length : Int)
  | ioCopy (data : ByteStream)

/-- The two collaborator interfaces, over a store state `σ`: each method takes
the state, and gives back the Go results together with the next state. `H` is
the type of object-store handles `GetObjectStore` returns. -/
structure Backend (P σ H : Type) where
  bsGet : String → σ → (BucketMeta × Option Error) × σ
  bsPut : String → σ → (BucketMeta × Option Error) × σ
  bsDelete : String → σ → Option Error × σ
  bsList : String → String → Int → σ → (List BucketListItem × Bool × Option Error) × σ
  bsGetObjectStore : String → σ → (H × Option Error) × σ
  osList : H → Option P → Option P → Option P → Bool → Int → MetaFlags → σ →
    (List (ListItem P) × Bool × Option Error) × σ
  osGet : H → P → σ → (Ranger × Meta × Option Error) × σ
  osPut : H → P → ByteStream → SerializableMeta → Time → σ → (Meta × Option Error) × σ
  osDelete : H → P → σ → Option Error × σ
  osMeta : H → P → σ → (Meta × Option Error) × σ

/-- The state a gateway operation runs in: the state of the stores, and the log
of the calls made on them so far, oldest first. -/
structure World (P σ H : Type) where
  store : σ
  calls : List (Call P H)

variable {P σ H : Type}

/-- The call `s.storj.bs.Get(ctx, bucket)`. -/
def Backend.callGet (B : Backend P σ H) (bucket : String) (w : World P σ H) :
    (BucketMeta × Option Error) × World P σ H :=
  ((B.bsGet bucket w.store).1,
    { store := (B.bsGet bucket w.store).2, calls := w.calls ++ [Call.bsGet bucket] })

/-- The call `s.storj.bs.Put(ctx, bucket)`. -/
def Backend.callPut (B : Backend P σ H) (bucket : String) (w : World P σ H) :
    (BucketMeta × Option Error) × World P σ H :=
  ((B.bsPut bucket w.store).1,
    { store := (B.bsPut bucket w.store).2, calls := w.calls ++ [Call.bsPut bucket] })

/-- The call `s.storj.bs.Delete(ctx, bucket)`. -/
def Backend.callDelete (B : Backend P σ H) (bucket : String) (w : World P σ H) :
    Option Error × World P σ H :=
  ((B.bsDelete bucket w.store).1,
    { store := (B.bsDelete bucket w.store).2, calls := w.calls ++ [Call.bsDelete bucket] })

/-- The call `s.storj.bs.List(ctx, startAfter, endBefore, limit)`. -/
def Backend.callList (B : Backend P σ H) (startAfter endBefore : String) (limit : Int)
    (w : World P σ H) : (List BucketListItem × Bool × Option Error) × World P σ H :=
  ((B.bsList startAfter endBefore limit w.store).1,
    { store := (B.bsList startAfter endBefore limit w.store).2,
      calls := w.calls ++ [Call.bsList startAfter endBefore limit] })

/-- The call `s.storj.bs.GetObjectStore(ctx, bucket)`. -/
def Backend.callGetObjectStore (B : Backend P σ H) (bucket : String) (w : World P σ H) :
    (H × Option Error) × World P σ H :=
  ((B.bsGetObjectStore bucket w.store).1,
    { store := (B.bsGetObjectStore bucket w.store).2,
      calls := w.calls ++ [Call.bsGetObjectStore bucket] })

/-- The call `o.List(ctx, prefix, startAfter, endBefore, recursive, limit, metaFlags)`. -/
def Backend.callObjList (B : Backend P σ H) (o : H) (pfx startAfter endBefore : Option P)
    (recursive : Bool) (limit : Int) (metaFlags : MetaFlags) (w : World P σ H) :
    (List (ListItem P) × Bool × Option Error) × World P σ H :=
  ((B.osList o pfx startAfter endBefore recursive limit metaFlags w.store).1,
    { store := (B.osList o pfx startAfter endBefore recursive limit metaFlags w.store).2,
      calls := w.calls ++ [Call.osList o pfx startAfter endBefore recursive limit metaFlags] })

/-- The call `o.Get(ctx, path)`. -/
def Backend.callObjGet (B : Backend P σ H) (o : H) (path : P) (w : World P σ H) :
    (Ranger × Meta × Option Error) × World P σ H :=
  ((B.osGet o path w.store).1,
    { store := (B.osGet o path w.store).2, calls := w.calls ++ [Call.osGet o path] })

/-- The call `o.Put(ctx, path, data, metadata, expiration)`. -/
def Backend.callObjPut (B : Backend P σ H) (o : H) (path : P) (data : ByteStream)
    (metadata : SerializableMeta) (expiration : Time) (w : World P σ H) :
    (Meta × Option Error) × World P σ H :=
  ((B.osPut o path data metadata expiration w.store).1,
    { store := (B.osPut o path data metadata expiration w.store).2,
      calls := w.calls ++ [Call.osPut o path data metadata expiration] })

/-- The call `o.Delete(ctx, path)`. -/
def Backend.callObjDelete (B : Backend P σ H) (o : H) (path : P) (w : World P σ H) :
    Option Error × World P σ H :=
  ((B.osDelete o path w.store).1,
    { store := (B.osDelete o path w.store).2, calls := w.calls ++ [Call.osDelete o path] })

/-- The call `o.Meta(ctx, path)`. -/
def Backend.callObjMeta (B : Backend P σ H) (o : H) (path : P) (w : World P σ H) :
    (Meta × Option Error) × World P σ H :=
  ((B.osMeta o path w.store).1,
    { store := (B.osMeta o path w.store).2, calls := w.calls ++ [Call.osMeta o path] })

/-- The call `rr.Range(ctx, offset, length)`. -/
def Ranger.callRange (rr : Ranger) (offset length : Int) (w : World P σ H) :
    (ByteStream × Option Error) × World P σ H :=
  (rr.Range offset length,
    { store := w.store, calls := w.calls ++ [Call.rrRange offset length] })

/-- The call `io.Copy(writer, r)`: the writer is the function that consumes the
stream and gives the error of the copy. -/
def callCopy (writer : ByteStream → Option Error) (r : ByteStream) (w : World P σ H) :
    Option Error × World P σ H :=
  (writer r, { store := w.store, calls := w.calls ++ [Call.ioCopy r] })

/-- The value an `int64` computation gives for the integer `x`: `x` wrapped
into the range from `-2^63` to `2^63 - 1`. -/
def wrapInt64 (x : Int) : Int :=
  (x + 2 ^ 63) % 2 ^ 64 - 2 ^ 63

/-! ## Bucket operations -/

/-- `storjObjects.DeleteBucket`. -/
def DeleteBucket (B : Backend P σ H) (bucket : String) (w : World P σ H) :
    Option Error × World P σ H :=
  let r := B.callGet bucket w
  match r.1.2 with
  | some err =>
    if ErrKeyNotFound.Has (some err) then (some (Error.BucketNotFound bucket), r.2)
    else (some err, r.2)
  | none =>
    let ro := B.callGetObjectStore bucket r.2
    match ro.1.2 with
    | some err => (some err, ro.2)
    | none =>
      let rl := B.callObjList ro.1.1 none none none true 1 MetaFlags.None ro.2
      match rl.1.2.2 with
      | some err => (some err, rl.2)
      | none =>
        if rl.1.1.length > 0 then (some (Error.BucketNotEmpty bucket), rl.2)
        else B.callDelete bucket rl.2

/-- `storjObjects.GetBucketInfo`. -/
def GetBucketInfo (B : Backend P σ H) (bucket : String) (w : World P σ H) :
    (BucketInfo × Option Error) × World P σ H :=
  let r := B.callGet bucket w
  match r.1.2 with
  | some err =>
    if ErrKeyNotFound.Has (some err) then (({}, some (Error.BucketNotFound bucket)), r.2)
    else (({}, some err), r.2)
  | none => (({ Name := bucket, Created := r.1.1.Created }, none), r.2)

/-- `storjObjects.MakeBucketWithLocation`. -/
def MakeBucketWithLocation (B : Backend P σ H) (bucket : String) (location : String)
    (w : World P σ H) : Option Error × World P σ H :=
  let _ := location
  let r := B.callGet bucket w
  match r.1.2 with
  | none => (some (Error.BucketAlreadyExists bucket), r.2)
  | some err =>
    if !ErrKeyNotFound.Has (some err) then (some err, r.2)
    else
      let rp := B.callPut bucket r.2
      (rp.1.2, rp.2)

/-- The outcome of a Go function that can index a slice out of range. -/
inductive Run (α : Type) where
  | returned (a : α)
  | indexOutOfRange

/-- The `for` loop of `storjObjects.ListBuckets`, with the number of iterations
it may still make: `none` when they do not suffice. -/
def ListBuckets.loop (B : Backend P σ H) :
    Nat → String → List BucketListItem → World P σ H →
      Option (Run (List BucketListItem × Option Error) × World P σ H)
  | 0, _, _, _ => none
  | fuel + 1, startAfter, items, w =>
    let r := B.callList startAfter "" 0 w
    match r.1.2.2 with
    | some err => some (Run.returned ([], some err), r.2)
    | none =>
      let items := items ++ r.1.1
      if !r.1.2.1 then some (Run.returned (items, none), r.2)
      else
        match r.1.1.getLast? with
        | none => some (Run.indexOutOfRange, r.2)
        | some last => ListBuckets.loop B fuel last.Bucket items r.2

/-- `storjObjects.ListBuckets`, with a bound on the iterations of its loop. -/
def ListBuckets (B : Backend P σ H) (fuel : Nat) (w : World P σ H) :
    Option (Run (List BucketInfo × Option Error) × World P σ H) :=
  match ListBuckets.loop B fuel "" [] w with
  | none => none
  | some (Run.indexOutOfRange, w1) => some (Run.indexOutOfRange, w1)
  | some (Run.returned (_, some err), w1) => some (Run.returned ([], some err), w1)
  | some (Run.returned (items, none), w1) =>
    some (Run.returned
      (items.map (fun item => { Name := item.Bucket, Created := item.Meta.Created }), none), w1)

/-! ## Object operations -/

/-- `storjObjects.DeleteObject`. -/
def DeleteObject (ops : PathOps P) (B : Backend P σ H) (bucket object : String)
    (w : World P σ H) : Option Error × World P σ H :=
  let ro := B.callGetObjectStore bucket w
  match ro.1.2 with
  | some err => (some err, ro.2)
  | none =>
    let rd := B.callObjDelete ro.1.1 (ops.New object) ro.2
    if ErrKeyNotFound.Has rd.1 then (some (Error.ObjectNotFound bucket object), rd.2)
    else (rd.1, rd.2)

/-- `storjObjects.getObject`: a nil ranger is `none`. -/
def getObject (ops : PathOps P) (B : Backend P σ H) (bucket object : String)
    (w : World P σ H) : (Option Ranger × Option Error) × World P σ H :=
  let ro := B.callGetObjectStore bucket w
  match ro.1.2 with
  | some err => ((none, some err), ro.2)
  | none =>
    let rg := B.callObjGet ro.1.1 (ops.New object) ro.2
    ((some rg.1.1, rg.1.2.2), rg.2)

/-- `storjObjects.GetObject`. The writer is the function that consumes the
stream `io.Copy` hands to it and gives the error of the copy; `length`,
`startOffset` and the size of the ranger are `int64` values, and their
difference is computed in `int64`. The result also carries the range
requested from the ranger (offset, length) and the stream copied to the
writer, when the call got that far; the deferred close of the stream is left
out. -/
def GetObject (ops : PathOps P) (B : Backend P σ H) (bucket object : String)
    (startOffset length : Int) (writer : ByteStream → Option Error) (etag : String)
    (w : World P σ H) :
    (Option (Int × Int) × Option ByteStream × Option Error) × World P σ H :=
  let _ := etag
  let rg := getObject ops B bucket object w
  match rg.1.2, rg.1.1 with
  | some err, _ => ((none, none, some err), rg.2)
  | none, none => ((none, none, none), rg.2)
  | none, some rr =>
    let length := if length = -1 then wrapInt64 (rr.Size - startOffset) else length
    let r := rr.callRange startOffset length rg.2
    match r.1.2 with
    | some err => ((some (startOffset, length), none, some err), r.2)
    | none =>
      let rc := callCopy writer r.1.1 r.2
      ((some (startOffset, length), some r.1.1, rc.1), rc.2)

/-- `storjObjects.GetObjectInfo`. -/
def GetObjectInfo (ops : PathOps P) (B : Backend P σ H) (bucket object : String)
    (w : World P σ H) : (ObjectInfo × Option Error) × World P σ H :=
  let ro := B.callGetObjectStore bucket w
  match ro.1.2 with
  | some err => (({}, some err), ro.2)
  | none =>
    let rm := B.callObjMeta ro.1.1 (ops.New object) ro.2
    match rm.1.2 with
    | some err =>
      if ErrKeyNotFound.Has (some err) then
        (({}, some (Error.ObjectNotFound bucket object)), rm.2)
      else (({}, some err), rm.2)
    | none =>
      (({ Name := object, Bucket := bucket, ModTime := rm.1.1.Modified, Size := rm.1.1.Size,
          ETag := rm.1.1.Checksum, ContentType := rm.1.1.ContentType,
          UserDefined := rm.1.1.UserDefined }, none), rm.2)

/-- `storjObjects.putObject`. The two goroutines it starts (the signal listener
and the context watcher) touch neither the stores nor the result, and are left
out. -/
def putObject (ops : PathOps P) (B : Backend P σ H) (bucket object : String)
    (r : ByteStream) (metadata : SerializableMeta) (w : World P σ H) :
    (ObjectInfo × Option Error) × World P σ H :=
  let expTime : Time := 0
  let ro := B.callGetObjectStore bucket w
  match ro.1.2 with
  | some err => (({}, some err), ro.2)
  | none =>
    let rp := B.callObjPut ro.1.1 (ops.New object) r metadata expTime ro.2
    (({ Name := object, Bucket := bucket, ModTime := rp.1.1.Modified, Size := rp.1.1.Size,
        ETag := rp.1.1.Checksum, ContentType := rp.1.1.ContentType,
        UserDefined := rp.1.1.UserDefined }, rp.1.2), rp.2)

/-- `storjObjects.PutObject`. -/
def PutObject (ops : PathOps P) (B : Backend P σ H) (bucket object : String)
    (data : ByteStream) (metadata : StrMap) (w : World P σ H) :
    (ObjectInfo × Option Error) × World P σ H :=
  let tempContType := metadata.index "content-type"
  let metadata := metadata.delete "content-type"
  let serMetaInfo : SerializableMeta :=
    { ContentType := tempContType, UserDefined := metadata }
  putObject ops B bucket object data serMetaInfo w

/-- `storjObjects.CopyObject`. The result also carries the range requested
from the source ranger (offset, length), when the call got that far; the
deferred close of the stream is left out. -/
def CopyObject (ops : PathOps P) (B : Backend P σ H)
    (srcBucket srcObject destBucket destObject : String) (srcInfo : ObjectInfo)
    (w : World P σ H) : (Option (Int × Int) × ObjectInfo × Option Error) × World P σ H :=
  let rg := getObject ops B srcBucket srcObject w
  match rg.1.2, rg.1.1 with
  | some err, _ => ((none, {}, some err), rg.2)
  | none, none => ((none, {}, none), rg.2)
  | none, some rr =>
    let r := rr.callRange 0 rr.Size rg.2
    match r.1.2 with
    | some err => ((some (0, rr.Size), {}, some err), r.2)
    | none =>
      let serMetaInfo : SerializableMeta :=
        { ContentType := srcInfo.ContentType, UserDefined := srcInfo.UserDefined }
      let rp := putObject ops B destBucket destObject r.1.1 serMetaInfo r.2
      ((some (0, rr.Size), rp.1.1, rp.1.2), rp.2)

/-! ## Listing -/

/-- The body of the loop `for _, item := range items` shared by `ListObjects`
and `ListObjectsV2`, run over the items from the first on: `acc` holds the
slices `objects` and `prefixes` built so far. -/
def listLoop (ops : PathOps P) (bucket pfx : String) (recursive : Bool) :
    List (ListItem P) → List ObjectInfo × List String → List ObjectInfo × List String
  | [], acc => acc
  | item :: rest, (objects, prefixes) =>
    let path := item.Path
    let path := if recursive then ops.Prepend path pfx else path
    if item.IsPrefix then
      listLoop ops bucket pfx recursive rest (objects, prefixes ++ [ops.String path ++ "/"])
    else
      listLoop ops bucket pfx recursive rest
        (objects ++ [{ Bucket := bucket, IsDir := false, Name := ops.String path,
                       ModTime := item.Meta.Modified, Size := item.Meta.Size,
                       ContentType := item.Meta.ContentType,
                       UserDefined := item.Meta.UserDefined,
                       ETag := item.Meta.Checksum }], prefixes)

/-- `storjObjects.ListObjects`. -/
def ListObjects (ops : PathOps P) (B : Backend P σ H)
    (bucket pfx marker delimiter : String) (maxKeys : Int) (w : World P σ H) :
    (ListObjectsInfo × Option Error) × World P σ H :=
  if delimiter ≠ "" ∧ delimiter ≠ "/" then
    (({}, some (Error.gateway ("delimiter " ++ delimiter ++ " not supported"))), w)
  else
    let startAfter := ops.New marker
    let recursive := decide (delimiter = "")
    let ro := B.callGetObjectStore bucket w
    match ro.1.2 with
    | some err => (({}, some err), ro.2)
    | none =>
      let rl := B.callObjList ro.1.1 (some (ops.New pfx)) (some startAfter) none recursive
        maxKeys MetaFlags.All ro.2
      match rl.1.2.2 with
      | some err => (({}, some err), rl.2)
      | none =>
        let items := rl.1.1
        let more := rl.1.2.1
        let acc := if items.length > 0 then listLoop ops bucket pfx recursive items ([], [])
          else ([], [])
        let startAfter :=
          match items.getLast? with
          | some last => last.Path
          | none => startAfter
        let result : ListObjectsInfo :=
          { IsTruncated := more, Objects := acc.1, Prefixes := acc.2 }
        let result := if more then { result with NextMarker := ops.String startAfter }
          else result
        ((result, none), rl.2)

/-- `storjObjects.ListObjectsV2`. -/
def ListObjectsV2 (ops : PathOps P) (B : Backend P σ H)
    (bucket pfx continuationToken delimiter : String) (maxKeys : Int) (fetchOwner : Bool)
    (startAfter : String) (w : World P σ H) :
    (ListObjectsV2Info × Option Error) × World P σ H :=
  let _ := fetchOwner
  if delimiter ≠ "" ∧ delimiter ≠ "/" then
    (({ ContinuationToken := continuationToken },
      some (Error.gateway ("delimiter " ++ delimiter ++ " not supported"))), w)
  else
    let recursive := decide (delimiter = "")
    let startAfterPath : Option P := none
    let startAfterPath :=
      if continuationToken ≠ "" then some (ops.New continuationToken) else startAfterPath
    let startAfterPath :=
      if startAfterPath.isNone = true ∧ startAfter ≠ "" then some (ops.New startAfter)
      else startAfterPath
    let ro := B.callGetObjectStore bucket w
    match ro.1.2 with
    | some err => (({ ContinuationToken := continuationToken }, some err), ro.2)
    | none =>
      let rl := B.callObjList ro.1.1 (some (ops.New pfx)) startAfterPath none recursive
        maxKeys MetaFlags.All ro.2
      match rl.1.2.2 with
      | some err => (({}, some err), rl.2)
      | none =>
        let items := rl.1.1
        let more := rl.1.2.1
        let acc := if items.length > 0 then listLoop ops bucket pfx recursive items ([], [])
          else ([], [])
        let nextContinuationToken :=
          match items.getLast? with
          | some last => ops.String last.Path ++ "\x00"
          | none => ""
        let result : ListObjectsV2Info :=
          { IsTruncated := more, ContinuationToken := continuationToken,
            Objects := acc.1, Prefixes := acc.2 }
        let result :=
          if more then { result with NextContinuationToken := nextContinuationToken }
          else result
        ((result, none), rl.2)

/-! ## What the listing calls ask of the object store -/

/-- The answer of `GetObjectStore(bucket)` in world `w`: the handle, the error,
and the next state of the stores. -/
def storeOf (B : Backend P σ H) (bucket : String) (w : World P σ H) : (H × Option Error) × σ :=
  B.bsGetObjectStore bucket w.store

/-- The answer of the object store to the `List` call of `ListObjects`: the
items, the flag `more`, the error, and the next state of the stores. -/
def pageV1 (ops : PathOps P) (B : Backend P σ H) (bucket pfx marker delimiter : String)
    (maxKeys : Int) (w : World P σ H) : (List (ListItem P) × Bool × Option Error) × σ :=
  B.osList (storeOf B bucket w).1.1 (some (ops.New pfx)) (some (ops.New marker)) none
    (decide (delimiter = "")) maxKeys MetaFlags.All (storeOf B bucket w).2

/-- The start-after path `ListObjectsV2` hands to `List`, as the claim on the
precedence of the two cursor sources words it: built from the continuation
token when there is one, else from `startAfter` when there is one, else nil. -/
def startAfterV2 (ops : PathOps P) (continuationToken startAfter : String) : Option P :=
  if continuationToken ≠ "" then some (ops.New continuationToken)
  else if startAfter ≠ "" then some (ops.New startAfter)
  else none

/-- The answer of the object store to the `List` call of `ListObjectsV2`. -/
def pageV2 (ops : PathOps P) (B : Backend P σ H)
    (bucket pfx continuationToken delimiter : String) (maxKeys : Int) (startAfter : String)
    (w : World P σ H) : (List (ListItem P) × Bool × Option Error) × σ :=
  B.osList (storeOf B bucket w).1.1 (some (ops.New pfx))
    (startAfterV2 ops continuationToken startAfter) none
    (decide (delimiter = "")) maxKeys MetaFlags.All (storeOf B bucket w).2

/-! ## What the bucket operations ask of the stores -/

/-- The answer of the bucket store's `Get(bucket)` in world `w`. -/
def getOf (B : Backend P σ H) (bucket : String) (w : World P σ H) :
    (BucketMeta × Option Error) × σ :=
  B.bsGet bucket w.store

/-- The answer of `GetObjectStore(bucket)` to `DeleteBucket`, which asks after
its `Get`. -/
def storeAfterGet (B : Backend P σ H) (bucket : String) (w : World P σ H) :
    (H × Option Error) × σ :=
  B.bsGetObjectStore bucket (getOf B bucket w).2

/-- The answer of the object store to the `List` call of `DeleteBucket`: a
recursive listing with limit 1, nil prefix, nil bounds and no metadata. -/
def probeOf (B : Backend P σ H) (bucket : String) (w : World P σ H) :
    (List (ListItem P) × Bool × Option Error) × σ :=
  B.osList (storeAfterGet B bucket w).1.1 none none none true 1 MetaFlags.None
    (storeAfterGet B bucket w).2

/-- The call log entry of the `List` call of `DeleteBucket`. -/
def probeCall (B : Backend P σ H) (bucket : String) (w : World P σ H) : Call P H :=
  Call.osList (storeAfterGet B bucket w).1.1 none none none true 1 MetaFlags.None

/-- The answer of the bucket store's `Delete(bucket)` to `DeleteBucket`, which
asks after its `List`. -/
def deleteOf (B : Backend P σ H) (bucket : String) (w : World P σ H) : Option Error × σ :=
  B.bsDelete bucket (probeOf B bucket w).2

/-- The answer of the bucket store's `Put(bucket)` to `MakeBucketWithLocation`,
which asks after its `Get`. -/
def putOf (B : Backend P σ H) (bucket : String) (w : World P σ H) :
    (BucketMeta × Option Error) × σ :=
  B.bsPut bucket (getOf B bucket w).2

/-! ## The listing contract of the object store, and a client that pages -/

/-- The listing contract the pagination claims assume of the object store: over
the stored items, held in increasing path order, `List` gives the first `limit`
items whose path is strictly greater than the start-after path (all of them for
the nil path and for a limit that is not positive), and `more` says whether
further such items remain. -/
def pageAfter [LT P] [DecidableRel (fun (a b : P) => a < b)] (stored : List (ListItem P))
    (startAfter : Option P) (limit : Int) : List (ListItem P) × Bool :=
  let candidates :=
    match startAfter with
    | none => stored
    | some sa => stored.filter (fun item => decide (sa < item.Path))
  if limit ≤ 0 then (candidates, false)
  else (candidates.take limit.toNat, decide (limit.toNat < candidates.length))

/-- A client that pages through a bucket with `ListObjects`: it starts from
`marker`, feeds each result's `NextMarker` back as the next marker, and stops
at the first result whose `IsTruncated` is false (or at an error), returning
the objects and prefixes of all pages in the order received. `none` when `fuel`
calls do not suffice. -/
def listAllV1 (ops : PathOps P) (B : Backend P σ H) (bucket pfx delimiter : String)
    (maxKeys : Int) :
    Nat → String → World P σ H →
      Option ((List ObjectInfo × List String × Option Error) × World P σ H)
  | 0, _, _ => none
  | fuel + 1, marker, w =>
    let r := ListObjects ops B bucket pfx marker delimiter maxKeys w
    match r.1.2 with
    | some err => some (([], [], some err), r.2)
    | none =>
      if r.1.1.IsTruncated then
        match listAllV1 ops B bucket pfx delimiter maxKeys fuel r.1.1.NextMarker r.2 with
        | none => none
        | some (rest, w1) =>
          some ((r.1.1.Objects ++ rest.1, r.1.1.Prefixes ++ rest.2.1, rest.2.2), w1)
      else some ((r.1.1.Objects, r.1.1.Prefixes, none), r.2)

/-- The object entry `ListObjects` and `ListObjectsV2` report for an item that
is not a prefix. -/
def objectOf (ops : PathOps P) (bucket pfx : String) (recursive : Bool) (item : ListItem P) :
    ObjectInfo :=
  { Bucket := bucket, IsDir := false,
    Name := ops.String (if recursive then ops.Prepend item.Path pfx else item.Path),
    ModTime := item.Meta.Modified, Size := item.Meta.Size,
    ContentType := item.Meta.ContentType, UserDefined := item.Meta.UserDefined,
    ETag := item.Meta.Checksum }

/-- The entry of `Prefixes` reported for an item that is a prefix. -/
def prefixOf (ops : PathOps P) (pfx : String) (recursive : Bool) (item : ListItem P) :
    String :=
  ops.String (if recursive then ops.Prepend item.Path pfx else item.Path) ++ "/"

/-! ## A concrete path model and an in-memory backend -/

/-- Modelled from the spec: package `paths` is not among the sources. "Path: an
ordered sequence of string segments representing a hierarchical key; supports
equality, lexicographic ordering, `Prepend(prefix)`, and a canonical string
form using `/` as separator." -/
structure Path where
  segs : List String
  deriving DecidableEq, Repr

/-- The segments of a string: the non-empty runs of characters between
separators `/`. `cur` is the run read so far. -/
def splitSegs : List Char → List Char → List String
  | [], cur => if cur = [] then [] else [String.mk cur]
  | c :: cs, cur =>
    if c = '/' then
      if cur = [] then splitSegs cs [] else String.mk cur :: splitSegs cs []
    else splitSegs cs (cur ++ [c])

/-- Modelled from the spec: `paths.New`, the path whose segments are those of
the string. -/
def Path.New (s : String) : Path :=
  { segs := splitSegs s.data [] }

/-- Modelled from the spec: `Path.Prepend`, the path of the given string
followed by the segments of the path. -/
def Path.Prepend (p : Path) (pfx : String) : Path :=
  Path.New (String.intercalate "/" (pfx :: p.segs))

/-- The key a path is ordered by: the character codes of its segments. -/
def Path.key (p : Path) : List (List Nat) :=
  p.segs.map (fun s => s.data.map Char.toNat)

/-- Modelled from the spec: `Path.String`, the "canonical string form using
`/` as separator". -/
def Path.String (p : Path) : String :=
  String.intercalate "/" p.segs

/-- Modelled from the spec: the "lexicographic ordering" of paths, segment by
segment, each segment by its character codes. -/
instance Path.instLinearOrder : LinearOrder Path :=
  LinearOrder.lift' Path.key (by
    intro a b h
    cases a
    cases b
    simp only [Path.key] at h
    refine congrArg Path.mk (List.map_injective_iff.mpr ?_ h)
    intro s t hst
    refine String.ext (List.map_injective_iff.mpr ?_ hst)
    intro c d hcd
    have hof := congrArg Char.ofNat hcd
    simpa [Char.ofNat_toNat] using hof)

/-- The operations of the concrete path model. -/
def specPaths : PathOps Path :=
  { New := Path.New, Prepend := Path.Prepend, String := Path.String }

/-- One stored object of the in-memory backend: its bucket, its listing item
and its bytes. -/
structure MemObject where
  bucket : String
  item : ListItem Path
  data : ByteStream

/-- The state of the in-memory backend: the buckets, and the objects in
increasing path order. -/
structure MemStore where
  buckets : List BucketListItem := []
  objects : List MemObject := []

/-- The error the in-memory backend reports for a missing key. -/
def memNotFound : Error := Error.storage true "key not found"

/-- The ranger over the bytes of a stored object. -/
def memRanger (data : ByteStream) : Ranger :=
  { Size := data.length
    Range := fun offset length =>
      if offset < 0 ∨ length < 0 ∨ (data.length : Int) < offset + length then
        ([], some (Error.storage false "range beyond end"))
      else ((data.drop offset.toNat).take length.toNat, none) }

/-- Insertion of an object at its place in the path order, replacing an
object of the same bucket and path. -/
def memInsert (x : MemObject) : List MemObject → List MemObject
  | [] => [x]
  | y :: ys =>
    if y.bucket = x.bucket ∧ y.item.Path = x.item.Path then x :: ys
    else if x.item.Path < y.item.Path then x :: y :: ys
    else y :: memInsert x ys

/-- An in-memory backend: buckets are kept by name, the handle of a bucket's
object store is the bucket name, and `List` on an object store follows
`pageAfter` over the objects of the bucket (paths are kept as given, not
relative to the listing prefix, which is not looked at). -/
def memBackend : Backend Path MemStore String :=
  { bsGet := fun bucket st =>
      match st.buckets.find? (fun b => b.Bucket = bucket) with
      | some b => ((b.Meta, none), st)
      | none => (({}, some memNotFound), st)
    bsPut := fun bucket st =>
      (({}, none),
        { st with buckets :=
            st.buckets.filter (fun b => b.Bucket != bucket) ++ [{ Bucket := bucket }] })
    bsDelete := fun bucket st =>
      if st.buckets.any (fun b => b.Bucket = bucket) then
        (none, { st with buckets := st.buckets.filter (fun b => b.Bucket != bucket) })
      else (some memNotFound, st)
    bsList := fun _ _ _ st => ((st.buckets, false, none), st)
    bsGetObjectStore := fun bucket st => ((bucket, none), st)
    osList := fun o _ startAfter _ _ limit _ st =>
      let page := pageAfter
        ((st.objects.filter (fun x => x.bucket = o)).map (fun x => x.item)) startAfter limit
      ((page.1, page.2, none), st)
    osGet := fun o path st =>
      match st.objects.find? (fun x => x.bucket = o ∧ x.item.Path = path) with
      | some x => ((memRanger x.data, x.item.Meta, none), st)
      | none => ((memRanger [], {}, some memNotFound), st)
    osPut := fun o path data metadata expiration st =>
      let m : Meta :=
        { Expiration := expiration, Size := data.length,
          ContentType := metadata.ContentType, UserDefined := metadata.UserDefined }
      let x : MemObject := { bucket := o, item := { Path := path, Meta := m }, data := data }
      ((m, none), { st with objects := memInsert x st.objects })
    osDelete := fun o path st =>
      if st.objects.any (fun x => x.bucket = o ∧ x.item.Path = path) then
        (none,
          { st with objects :=
              st.objects.filter (fun x => !decide (x.bucket = o ∧ x.item.Path = path)) })
      else (some memNotFound, st)
    osMeta := fun o path st =>
      match st.objects.find? (fun x => x.bucket = o ∧ x.item.Path = path) with
      | some x => ((x.item.Meta, none), st)
      | none => (({}, some memNotFound), st) }

/-- The stored object of bucket `bucket` named by the one-segment path `name`,
with no bytes. -/
def memObject (bucket name : String) : MemObject :=
  { bucket := bucket, item := { Path := { segs := [name] } }, data := [] }

/-- A world over the in-memory backend holding one bucket with objects of the
given names, and an empty call log. -/
def memWorld (bucket : String) (names : List String) : World Path MemStore String :=
  { store := { buckets := [{ Bucket := bucket }], objects := names.map (memObject bucket) }
    calls := [] }

/-- A world over the in-memory backend whose bucket `b` lists the prefix `d`
and the object `f`. -/
def memWorldDir : World Path MemStore String :=
  { store :=
      { buckets := [{ Bucket := "b" }]
        objects :=
          [{ bucket := "b", item := { Path := { segs := ["d"] }, IsPrefix := true }, data := [] },
           memObject "b" "f"] }
    calls := [] }

/-- A world over the in-memory backend whose bucket `b` holds the objects of
paths `a`, `a/b` and `b`, in increasing path order. -/
def memWorldNested : World Path MemStore String :=
  { store :=
      { buckets := [{ Bucket := "b" }]
        objects :=
          [memObject "b" "a",
           { bucket := "b", item := { Path := { segs := ["a", "b"] } }, data := [] },
           memObject "b" "b"] }
    calls := [] }

/-- The names `a`, `b`, ..., `z`. -/
def alphabet : List String :=
  ["a", "b", "c", "d", "e", "f", "g", "h", "i", "j", "k", "l", "m",
   "n", "o", "p", "q", "r", "s", "t", "u", "v", "w", "x", "y", "z"]

/-- The listing items of the objects named `a`, `b`, ..., `z`. -/
def alphabetItems : List (ListItem Path) :=
  alphabet.map (fun name => { Path := { segs := [name] } })

/-! ## What the object operations ask of the stores -/

/-- The answer of the object store to the `Get` call of `getObject`: the
ranger, the metadata, the error, and the next state of the stores. -/
def objGetOf (ops : PathOps P) (B : Backend P σ H) (bucket object : String)
    (w : World P σ H) : (Ranger × Meta × Option Error) × σ :=
  B.osGet (storeOf B bucket w).1.1 (ops.New object) (storeOf B bucket w).2

/-- The answer of the object store to the `Delete` call of `DeleteObject`. -/
def objDeleteOf (ops : PathOps P) (B : Backend P σ H) (bucket object : String)
    (w : World P σ H) : Option Error × σ :=
  B.osDelete (storeOf B bucket w).1.1 (ops.New object) (storeOf B bucket w).2

/-- The answer of the object store to the `Meta` call of `GetObjectInfo`. -/
def objMetaOf (ops : PathOps P) (B : Backend P σ H) (bucket object : String)
    (w : World P σ H) : (Meta × Option Error) × σ :=
  B.osMeta (storeOf B bucket w).1.1 (ops.New object) (storeOf B bucket w).2

/-- The answer of `GetObjectStore(destBucket)` to `CopyObject`, which asks
after the `Get` of the source object. -/
def destStoreOf (ops : PathOps P) (B : Backend P σ H) (srcBucket srcObject destBucket : String)
    (w : World P σ H) : (H × Option Error) × σ :=
  B.bsGetObjectStore destBucket (objGetOf ops B srcBucket srcObject w).2

/-- The answer of the ranger of the object to `Range(offset, length)`. -/
def rangeOf (ops : PathOps P) (B : Backend P σ H) (bucket object : String)
    (offset length : Int) (w : World P σ H) : ByteStream × Option Error :=
  (objGetOf ops B bucket object w).1.1.Range offset length

/-- The answer of the source ranger to the `Range` call of `CopyObject`: the
range from offset 0 of the length the ranger gives as its size. -/
def srcRangeOf (ops : PathOps P) (B : Backend P σ H) (srcBucket srcObject : String)
    (w : World P σ H) : ByteStream × Option Error :=
  (objGetOf ops B srcBucket srcObject w).1.1.Range 0 (objGetOf ops B srcBucket srcObject w).1.1.Size

/-- The answer of the destination object store to the `Put` call of
`CopyObject`. -/
def destPutOf (ops : PathOps P) (B : Backend P σ H)
    (srcBucket srcObject destBucket destObject : String) (srcInfo : ObjectInfo)
    (w : World P σ H) : (Meta × Option Error) × σ :=
  B.osPut (destStoreOf ops B srcBucket srcObject destBucket w).1.1 (ops.New destObject)
    (srcRangeOf ops B srcBucket srcObject w).1
    { ContentType := srcInfo.ContentType, UserDefined := srcInfo.UserDefined } 0
    (destStoreOf ops B srcBucket srcObject destBucket w).2

/-- The ranger reads the bytes `data`: its size is their number, and a range
that lies within them is answered with the bytes of the range. -/
def Ranger.Reads (rr : Ranger) (data : ByteStream) : Prop :=
  rr.Size = data.length ∧
  ∀ offset length : Int, 0 ≤ offset → 0 ≤ length → offset + length ≤ data.length →
    rr.Range offset length = ((data.drop offset.toNat).take length.toNat, none)

/-- A call that writes to a store: `Put` or `Delete`, on the bucket store or on
an object store. -/
def Call.isMutation : Call P H → Bool
  | Call.bsPut _ => true
  | Call.bsDelete _ => true
  | Call.osPut _ _ _ _ _ => true
  | Call.osDelete _ _ => true
  | _ => false

/-! ## The pages of the bucket listing -/

/-- The bucket name `ListBuckets` continues after: that of the last item of
the page (the empty string for a page with no item, where the Go code has no
such name). -/
def lastBucket (page : List BucketListItem) : String :=
  match page.getLast? with
  | some last => last.Bucket
  | none => ""

/-- The bucket store answers a run of page requests, from the start-after
value and the state given: `pages` are the pages answered without error, in
order, each requested after the bucket name of the last item of the page
before it; the run ends with a page that comes with `more` false (`done`), or
with a request that fails (`fail`), whose error it carries. -/
inductive Fetches (B : Backend P σ H) :
    String → σ → List (List BucketListItem) → Option Error → σ → Prop where
  | done {startAfter : String} {st st1 : σ} {page : List BucketListItem} :
      B.bsList startAfter "" 0 st = ((page, false, none), st1) →
      Fetches B startAfter st [page] none st1
  | fail {startAfter : String} {st st1 : σ} {page : List BucketListItem} {more : Bool}
      {err : Error} :
      B.bsList startAfter "" 0 st = ((page, more, some err), st1) →
      Fetches B startAfter st [] (some err) st1
  | next {startAfter : String} {st st1 st2 : σ} {page : List BucketListItem}
      {last : BucketListItem} {pages : List (List BucketListItem)} {e : Option Error} :
      B.bsList startAfter "" 0 st = ((page, true, none), st1) →
      page.getLast? = some last →
      Fetches B last.Bucket st1 pages e st2 →
      Fetches B startAfter st (page :: pages) e st2

/-- The start-after values of the requests of a run: the one it starts from,
then the bucket name of the last item of each page that is followed by another
request (every page of a run that fails, every page but the last of a run
that ends). -/
def requestsOf (startAfter : String) (pages : List (List BucketListItem))
    (e : Option Error) : List String :=
  startAfter ::
    (match e with
     | none => pages.dropLast
     | some _ => pages).map lastBucket

/-- The bucket entry `ListBuckets` reports for an item. -/
def bucketInfoOf (item : BucketListItem) : BucketInfo :=
  { Name := item.Bucket, Created := item.Meta.Created }

/-! ## More of the in-memory backend -/

/-- The buckets listed after the bucket named `startAfter`: all of them for the
empty name. -/
def bucketsAfter (startAfter : String) (buckets : List BucketListItem) : List BucketListItem :=
  if startAfter = "" then buckets
  else (buckets.dropWhile (fun b => b.Bucket != startAfter)).drop 1

/-- The in-memory backend with a bucket listing that answers two buckets a
page. -/
def pagedBackend : Backend Path MemStore String :=
  { memBackend with
    bsList := fun startAfter _ _ st =>
      (((bucketsAfter startAfter st.buckets).take 2,
        decide (2 < (bucketsAfter startAfter st.buckets).length), none), st) }

/-- A world over the in-memory backend with the buckets `b1`, `b2` and `b3`,
created at the times 1, 2 and 3. -/
def threeBuckets : World Path MemStore String :=
  { store :=
      { buckets := [{ Bucket := "b1", Meta := { Created := 1 } },
          { Bucket := "b2", Meta := { Created := 2 } },
          { Bucket := "b3", Meta := { Created := 3 } }] }
    calls := [] }

/-- The bytes 0, 1, ..., 99. -/
def hundredBytes : ByteStream := List.range 100

/-- A world over the in-memory backend whose bucket `b` holds the object `k` of
100 bytes. -/
def memWorldBytes : World Path MemStore String :=
  { store :=
      { buckets := [{ Bucket := "b" }]
        objects :=
          [{ bucket := "b"
             item := { Path := { segs := ["k"] }, Meta := { Size := 100, Checksum := "sum" } }
             data := hundredBytes }] }
    calls := [] }

/-! ## Lemmas on the listing loop -/

/-- The loop appends, to the objects and prefixes it starts from, the object
entries of the items that are not prefixes and the prefix entries of those
that are, each in the order of the items. -/
theorem listLoop_eq (ops : PathOps P) (bucket pfx : String) (recursive : Bool)
    (items : List (ListItem P)) (objects : List ObjectInfo) (prefixes : List String) :
    listLoop ops bucket pfx recursive items (objects, prefixes) =
      (objects ++ (items.filter (fun i => !i.IsPrefix)).map (objectOf ops bucket pfx recursive),
        prefixes ++ (items.filter (fun i => i.IsPrefix)).map (prefixOf ops pfx recursive)) := by
  induction items generalizing objects prefixes with
  | nil => simp [listLoop]
  | cons item rest ih =>
    cases hp : item.IsPrefix
    · simp [listLoop, hp, ih, objectOf]
    · simp [listLoop, hp, ih, prefixOf]

/-- The objects and prefixes of a page: the guard `len(items) > 0` around the
loop changes nothing. -/
theorem listLoop_nil_acc (ops : PathOps P) (bucket pfx : String) (recursive : Bool)
    (items : List (ListItem P)) :
    (if items.length > 0 then listLoop ops bucket pfx recursive items ([], []) else ([], [])) =
      ((items.filter (fun i => !i.IsPrefix)).map (objectOf ops bucket pfx recursive),
        (items.filter (fun i => i.IsPrefix)).map (prefixOf ops pfx recursive)) := by
  cases items with
  | nil => simp
  | cons item rest => simp [listLoop_eq]

/-- A successful `ListObjects`, in full: its result, and the world it leaves. -/
theorem ListObjects_ok (ops : PathOps P) (B : Backend P σ H)
    (bucket pfx marker delimiter : String) (maxKeys : Int) (w : World P σ H)
    (hd : delimiter = "" ∨ delimiter = "/")
    (ho : (storeOf B bucket w).1.2 = none)
    (hl : (pageV1 ops B bucket pfx marker delimiter maxKeys w).1.2.2 = none) :
    ListObjects ops B bucket pfx marker delimiter maxKeys w =
      (({ IsTruncated := (pageV1 ops B bucket pfx marker delimiter maxKeys w).1.2.1
          NextMarker :=
            if (pageV1 ops B bucket pfx marker delimiter maxKeys w).1.2.1 = true then
              ops.String
                (match (pageV1 ops B bucket pfx marker delimiter maxKeys w).1.1.getLast? with
                 | some last => last.Path
                 | none => ops.New marker)
            else ""
          Objects :=
            ((pageV1 ops B bucket pfx marker delimiter maxKeys w).1.1.filter
              (fun i => !i.IsPrefix)).map (objectOf ops bucket pfx (decide (delimiter = "")))
          Prefixes :=
            ((pageV1 ops B bucket pfx marker delimiter maxKeys w).1.1.filter
              (fun i => i.IsPrefix)).map (prefixOf ops pfx (decide (delimiter = ""))) }, none),
        { store := (pageV1 ops B bucket pfx marker delimiter maxKeys w).2
          calls := w.calls ++ [Call.bsGetObjectStore bucket,
            Call.osList (storeOf B bucket w).1.1 (some (ops.New pfx)) (some (ops.New marker)) none
              (decide (delimiter = "")) maxKeys MetaFlags.All] }) := by
  have hnd : ¬ (delimiter ≠ "" ∧ delimiter ≠ "/") := by
    rcases hd with h | h <;> simp [h]
  unfold pageV1 storeOf at *
  unfold ListObjects
  simp only [hnd, if_false, Backend.callGetObjectStore, Backend.callObjList, ho, hl,
    listLoop_nil_acc]
  cases hm : (B.osList (B.bsGetObjectStore bucket w.store).1.1 (some (ops.New pfx))
    (some (ops.New marker)) none (decide (delimiter = "")) maxKeys MetaFlags.All
    (B.bsGetObjectStore bucket w.store).2).1.2.1 <;> simp [List.append_assoc]

/-- The two assignments to `startAfterPath` in `ListObjectsV2` compute
`startAfterV2`. -/
theorem startAfterPath_eq (ops : PathOps P) (continuationToken startAfter : String) :
    (if (if continuationToken ≠ "" then some (ops.New continuationToken)
          else (none : Option P)).isNone = true ∧ startAfter ≠ ""
      then some (ops.New startAfter)
      else (if continuationToken ≠ "" then some (ops.New continuationToken) else none)) =
      startAfterV2 ops continuationToken startAfter := by
  unfold startAfterV2
  by_cases hc : continuationToken = "" <;> by_cases hs : startAfter = "" <;> simp [hc, hs]

/-- A successful `ListObjectsV2`, in full: its result, and the world it leaves. -/
theorem ListObjectsV2_ok (ops : PathOps P) (B : Backend P σ H)
    (bucket pfx continuationToken delimiter : String) (maxKeys : Int) (fetchOwner : Bool)
    (startAfter : String) (w : World P σ H)
    (hd : delimiter = "" ∨ delimiter = "/")
    (ho : (storeOf B bucket w).1.2 = none)
    (hl : (pageV2 ops B bucket pfx continuationToken delimiter maxKeys startAfter w).1.2.2
      = none) :
    ListObjectsV2 ops B bucket pfx continuationToken delimiter maxKeys fetchOwner startAfter w =
      (({ IsTruncated :=
            (pageV2 ops B bucket pfx continuationToken delimiter maxKeys startAfter w).1.2.1
          ContinuationToken := continuationToken
          NextContinuationToken :=
            if (pageV2 ops B bucket pfx continuationToken delimiter maxKeys startAfter w).1.2.1
                = true then
              (match (pageV2 ops B bucket pfx continuationToken delimiter maxKeys startAfter
                  w).1.1.getLast? with
               | some last => ops.String last.Path ++ "\x00"
               | none => "")
            else ""
          Objects :=
            ((pageV2 ops B bucket pfx continuationToken delimiter maxKeys startAfter w).1.1.filter
              (fun i => !i.IsPrefix)).map (objectOf ops bucket pfx (decide (delimiter = "")))
          Prefixes :=
            ((pageV2 ops B bucket pfx continuationToken delimiter maxKeys startAfter w).1.1.filter
              (fun i => i.IsPrefix)).map (prefixOf ops pfx (decide (delimiter = ""))) }, none),
        { store := (pageV2 ops B bucket pfx continuationToken delimiter maxKeys startAfter w).2
          calls := w.calls ++ [Call.bsGetObjectStore bucket,
            Call.osList (storeOf B bucket w).1.1 (some (ops.New pfx))
              (startAfterV2 ops continuationToken startAfter) none
              (decide (delimiter = "")) maxKeys MetaFlags.All] }) := by
  have hnd : ¬ (delimiter ≠ "" ∧ delimiter ≠ "/") := by
    rcases hd with h | h <;> simp [h]
  unfold pageV2 storeOf at *
  unfold ListObjectsV2
  simp only [hnd, if_false, Backend.callGetObjectStore, Backend.callObjList, ho,
    startAfterPath_eq, hl, listLoop_nil_acc]
  cases hm : (B.osList (B.bsGetObjectStore bucket w.store).1.1 (some (ops.New pfx))
    (startAfterV2 ops continuationToken startAfter) none (decide (delimiter = "")) maxKeys
    MetaFlags.All (B.bsGetObjectStore bucket w.store).2).1.2.1 <;> simp [List.append_assoc]

/-- `ListObjects` when `GetObjectStore` fails. -/
theorem ListObjects_store_err (ops : PathOps P) (B : Backend P σ H)
    (bucket pfx marker delimiter : String) (maxKeys : Int) (w : World P σ H)
    (hd : delimiter = "" ∨ delimiter = "/") (err : Error)
    (ho : (storeOf B bucket w).1.2 = some err) :
    ListObjects ops B bucket pfx marker delimiter maxKeys w =
      (({}, some err),
        { store := (storeOf B bucket w).2
          calls := w.calls ++ [Call.bsGetObjectStore bucket] }) := by
  have hnd : ¬ (delimiter ≠ "" ∧ delimiter ≠ "/") := by
    rcases hd with h | h <;> simp [h]
  unfold storeOf at *
  unfold ListObjects
  simp only [hnd, if_false, Backend.callGetObjectStore, ho]

/-- `ListObjects` when `List` fails. -/
theorem ListObjects_list_err (ops : PathOps P) (B : Backend P σ H)
    (bucket pfx marker delimiter : String) (maxKeys : Int) (w : World P σ H)
    (hd : delimiter = "" ∨ delimiter = "/") (err : Error)
    (ho : (storeOf B bucket w).1.2 = none)
    (hl : (pageV1 ops B bucket pfx marker delimiter maxKeys w).1.2.2 = some err) :
    ListObjects ops B bucket pfx marker delimiter maxKeys w =
      (({}, some err),
        { store := (pageV1 ops B bucket pfx marker delimiter maxKeys w).2
          calls := w.calls ++ [Call.bsGetObjectStore bucket,
            Call.osList (storeOf B bucket w).1.1 (some (ops.New pfx)) (some (ops.New marker)) none
              (decide (delimiter = "")) maxKeys MetaFlags.All] }) := by
  have hnd : ¬ (delimiter ≠ "" ∧ delimiter ≠ "/") := by
    rcases hd with h | h <;> simp [h]
  unfold pageV1 storeOf at *
  unfold ListObjects
  simp only [hnd, if_false, Backend.callGetObjectStore, Backend.callObjList, ho, hl,
    List.append_assoc, List.singleton_append]

/-- `ListObjectsV2` when `GetObjectStore` fails. -/
theorem ListObjectsV2_store_err (ops : PathOps P) (B : Backend P σ H)
    (bucket pfx continuationToken delimiter : String) (maxKeys : Int) (fetchOwner : Bool)
    (startAfter : String) (w : World P σ H)
    (hd : delimiter = "" ∨ delimiter = "/") (err : Error)
    (ho : (storeOf B bucket w).1.2 = some err) :
    ListObjectsV2 ops B bucket pfx continuationToken delimiter maxKeys fetchOwner startAfter w =
      (({ ContinuationToken := continuationToken }, some err),
        { store := (storeOf B bucket w).2
          calls := w.calls ++ [Call.bsGetObjectStore bucket] }) := by
  have hnd : ¬ (delimiter ≠ "" ∧ delimiter ≠ "/") := by
    rcases hd with h | h <;> simp [h]
  unfold storeOf at *
  unfold ListObjectsV2
  simp only [hnd, if_false, Backend.callGetObjectStore, ho]

/-- `ListObjectsV2` when `List` fails: the result is the zero value. -/
theorem ListObjectsV2_list_err (ops : PathOps P) (B : Backend P σ H)
    (bucket pfx continuationToken delimiter : String) (maxKeys : Int) (fetchOwner : Bool)
    (startAfter : String) (w : World P σ H)
    (hd : delimiter = "" ∨ delimiter = "/") (err : Error)
    (ho : (storeOf B bucket w).1.2 = none)
    (hl : (pageV2 ops B bucket pfx continuationToken delimiter maxKeys startAfter w).1.2.2
      = some err) :
    ListObjectsV2 ops B bucket pfx continuationToken delimiter maxKeys fetchOwner startAfter w =
      (({}, some err),
        { store := (pageV2 ops B bucket pfx continuationToken delimiter maxKeys startAfter w).2
          calls := w.calls ++ [Call.bsGetObjectStore bucket,
            Call.osList (storeOf B bucket w).1.1 (some (ops.New pfx))
              (startAfterV2 ops continuationToken startAfter) none
              (decide (delimiter = "")) maxKeys MetaFlags.All] }) := by
  have hnd : ¬ (delimiter ≠ "" ∧ delimiter ≠ "/") := by
    rcases hd with h | h <;> simp [h]
  unfold pageV2 storeOf at *
  unfold ListObjectsV2
  simp only [hnd, if_false, Backend.callGetObjectStore, Backend.callObjList, ho,
    startAfterPath_eq, hl, List.append_assoc, List.singleton_append]

/-- A `ListObjects` call that returns no error had a supported delimiter, and
neither `GetObjectStore` nor `List` failed. -/
theorem ListObjects_success (ops : PathOps P) (B : Backend P σ H)
    (bucket pfx marker delimiter : String) (maxKeys : Int) (w : World P σ H)
    (hok : (ListObjects ops B bucket pfx marker delimiter maxKeys w).1.2 = none) :
    (delimiter = "" ∨ delimiter = "/") ∧ (storeOf B bucket w).1.2 = none ∧
      (pageV1 ops B bucket pfx marker delimiter maxKeys w).1.2.2 = none := by
  have hd : delimiter = "" ∨ delimiter = "/" := by
    by_contra hcon
    push_neg at hcon
    simp [ListObjects, hcon.1, hcon.2] at hok
  refine ⟨hd, ?_⟩
  cases ho : (storeOf B bucket w).1.2 with
  | some err =>
    rw [ListObjects_store_err ops B bucket pfx marker delimiter maxKeys w hd err ho] at hok
    simp at hok
  | none =>
    refine ⟨rfl, ?_⟩
    cases hl : (pageV1 ops B bucket pfx marker delimiter maxKeys w).1.2.2 with
    | none => rfl
    | some err =>
      rw [ListObjects_list_err ops B bucket pfx marker delimiter maxKeys w hd err ho hl] at hok
      simp at hok

/-- A `ListObjectsV2` call that returns no error had a supported delimiter, and
neither `GetObjectStore` nor `List` failed. -/
theorem ListObjectsV2_success (ops : PathOps P) (B : Backend P σ H)
    (bucket pfx continuationToken delimiter : String) (maxKeys : Int) (fetchOwner : Bool)
    (startAfter : String) (w : World P σ H)
    (hok : (ListObjectsV2 ops B bucket pfx continuationToken delimiter maxKeys fetchOwner
      startAfter w).1.2 = none) :
    (delimiter = "" ∨ delimiter = "/") ∧ (storeOf B bucket w).1.2 = none ∧
      (pageV2 ops B bucket pfx continuationToken delimiter maxKeys startAfter w).1.2.2
        = none := by
  have hd : delimiter = "" ∨ delimiter = "/" := by
    by_contra hcon
    push_neg at hcon
    simp [ListObjectsV2, hcon.1, hcon.2] at hok
  refine ⟨hd, ?_⟩
  cases ho : (storeOf B bucket w).1.2 with
  | some err =>
    rw [ListObjectsV2_store_err ops B bucket pfx continuationToken delimiter maxKeys fetchOwner
      startAfter w hd err ho] at hok
    simp at hok
  | none =>
    refine ⟨rfl, ?_⟩
    cases hl : (pageV2 ops B bucket pfx continuationToken delimiter maxKeys startAfter
        w).1.2.2 with
    | none => rfl
    | some err =>
      rw [ListObjectsV2_list_err ops B bucket pfx continuationToken delimiter maxKeys
        fetchOwner startAfter w hd err ho hl] at hok
      simp at hok

/-! ## Pagination over a store that follows the listing contract -/

/-- In a list in strictly increasing path order, the items strictly after the
path of one of its items are the items that follow it. -/
theorem filter_after_of_sorted [LinearOrder P] (pre : List (ListItem P)) (x : ListItem P)
    (post : List (ListItem P))
    (hsorted : (pre ++ x :: post).Pairwise (fun a b => a.Path < b.Path)) :
    (pre ++ x :: post).filter (fun item => decide (x.Path < item.Path)) = post := by
  rw [List.pairwise_append] at hsorted
  obtain ⟨_, hxpost, hpre⟩ := hsorted
  rw [List.pairwise_cons] at hxpost
  rw [List.filter_append, List.filter_cons]
  have h1 : pre.filter (fun item => decide (x.Path < item.Path)) = [] := by
    rw [List.filter_eq_nil_iff]
    intro a ha
    have := hpre a ha x (List.mem_cons_self _ _)
    simpa using le_of_lt this
  have h2 : post.filter (fun item => decide (x.Path < item.Path)) = post := by
    rw [List.filter_eq_self]
    intro a ha
    simpa using hxpost.1 a ha
  simp [h1, h2]

/-- The page a contract-following store gives `ListObjects` for one key. -/
theorem pageV1_of_contract [LinearOrder P] (ops : PathOps P) (B : Backend P σ H)
    (bucket pfx : String) (o : H) (st : σ) (stored : List (ListItem P))
    (hstore : B.bsGetObjectStore bucket st = ((o, none), st))
    (hlist : ∀ sa, B.osList o (some (ops.New pfx)) (some sa) none true 1 MetaFlags.All st =
      (((pageAfter stored (some sa) 1).1, (pageAfter stored (some sa) 1).2, none), st))
    (rest : List (ListItem P)) (marker : String) (w : World P σ H)
    (hrest : stored.filter (fun item => decide (ops.New marker < item.Path)) = rest)
    (hw : w.store = st) :
    (storeOf B bucket w).1.2 = none ∧
    pageV1 ops B bucket pfx marker "" 1 w =
      ((rest.take 1, decide (1 < rest.length), none), st) := by
  unfold pageV1 storeOf
  rw [hw, hstore]
  refine ⟨rfl, ?_⟩
  simp only [decide_True, hlist, pageAfter, hrest]
  simp

/-- Paging from a marker: when the items strictly after the marker are `rest`,
the client gets the entries of `rest`, in order, and leaves the store as it
was. -/
theorem listAllV1_from [LinearOrder P] (ops : PathOps P) (B : Backend P σ H)
    (bucket pfx : String) (o : H) (st : σ) (stored : List (ListItem P))
    (hsorted : stored.Pairwise (fun a b => a.Path < b.Path))
    (hround : ∀ item ∈ stored, ops.New (ops.String item.Path) = item.Path)
    (hstore : B.bsGetObjectStore bucket st = ((o, none), st))
    (hlist : ∀ sa, B.osList o (some (ops.New pfx)) (some sa) none true 1 MetaFlags.All st =
      (((pageAfter stored (some sa) 1).1, (pageAfter stored (some sa) 1).2, none), st)) :
    ∀ (rest pre : List (ListItem P)) (fuel : Nat) (marker : String) (w : World P σ H),
      stored = pre ++ rest →
      stored.filter (fun item => decide (ops.New marker < item.Path)) = rest →
      rest.length < fuel → w.store = st →
      ∃ w1 : World P σ H, w1.store = st ∧
        listAllV1 ops B bucket pfx "" 1 fuel marker w =
          some (((rest.filter (fun i => !i.IsPrefix)).map (objectOf ops bucket pfx true),
            (rest.filter (fun i => i.IsPrefix)).map (prefixOf ops pfx true), none), w1) := by
  intro rest
  induction rest with
  | nil =>
    intro pre fuel marker w _ hrest hfuel hw
    obtain ⟨n, rfl⟩ : ∃ n, fuel = n + 1 := ⟨fuel - 1, by simp at hfuel; omega⟩
    obtain ⟨ho, hp⟩ := pageV1_of_contract ops B bucket pfx o st stored hstore hlist [] marker w
      hrest hw
    have hl : (pageV1 ops B bucket pfx marker "" 1 w).1.2.2 = none := by rw [hp]
    refine ⟨(ListObjects ops B bucket pfx marker "" 1 w).2, ?_, ?_⟩
    · rw [ListObjects_ok ops B bucket pfx marker "" 1 w (Or.inl rfl) ho hl, hp]
    · unfold listAllV1
      rw [ListObjects_ok ops B bucket pfx marker "" 1 w (Or.inl rfl) ho hl, hp]
      simp
  | cons x rest ih =>
    intro pre fuel marker w hpre hrest hfuel hw
    obtain ⟨n, rfl⟩ : ∃ n, fuel = n + 1 := ⟨fuel - 1, by simp at hfuel; omega⟩
    obtain ⟨ho, hp⟩ := pageV1_of_contract ops B bucket pfx o st stored hstore hlist
      (x :: rest) marker w hrest hw
    have hl : (pageV1 ops B bucket pfx marker "" 1 w).1.2.2 = none := by rw [hp]
    have hx : x ∈ stored := by rw [hpre]; simp
    cases rest with
    | nil =>
      refine ⟨(ListObjects ops B bucket pfx marker "" 1 w).2, ?_, ?_⟩
      · rw [ListObjects_ok ops B bucket pfx marker "" 1 w (Or.inl rfl) ho hl, hp]
      · unfold listAllV1
        rw [ListObjects_ok ops B bucket pfx marker "" 1 w (Or.inl rfl) ho hl, hp]
        simp
    | cons y rest =>
      have hnext : stored.filter
          (fun item => decide (ops.New (ops.String x.Path) < item.Path)) = y :: rest := by
        rw [hround x hx, hpre]
        exact filter_after_of_sorted pre x (y :: rest) (hpre ▸ hsorted)
      have hfuel1 : (y :: rest).length < n := by simp at hfuel ⊢; omega
      obtain ⟨w1, hw1, hrec⟩ := ih (pre ++ [x]) n (ops.String x.Path)
        { store := st
          calls := w.calls ++ [Call.bsGetObjectStore bucket,
            Call.osList (storeOf B bucket w).1.1 (some (ops.New pfx)) (some (ops.New marker))
              none (decide (("" : String) = "")) 1 MetaFlags.All] }
        (by rw [hpre]; simp) hnext hfuel1 rfl
      refine ⟨w1, hw1, ?_⟩
      unfold listAllV1
      rw [ListObjects_ok ops B bucket pfx marker "" 1 w (Or.inl rfl) ho hl, hp]
      simp only [List.take_succ_cons, List.take_zero, List.length_cons, List.getLast?_singleton]
      simp only [decide_True] at hrec
      simp [hrec]
      cases hxp : x.IsPrefix <;> simp [hxp]

/-- Deleting a key leaves the values under the other keys as they were. -/
theorem StrMap.lookup_delete_ne (m : StrMap) (k key : String) (hk : k ≠ key) :
    (StrMap.delete m key).lookup k = m.lookup k := by
  induction m with
  | nil => rfl
  | cons kv rest ih =>
    unfold StrMap.delete at ih ⊢
    by_cases hkv : kv.1 = key
    · have hne : (k == kv.1) = false := by
        rw [beq_eq_false_iff_ne]
        exact fun h => hk (h.trans hkv)
      rw [List.filter_cons]
      simp only [hkv, bne_self_eq_false, Bool.false_eq_true, if_false]
      rw [ih]
      cases kv with
      | mk a b =>
        simp only at hne
        simp [List.lookup, hne]
    · have hb : (kv.1 != key) = true := by simpa using hkv
      rw [List.filter_cons]
      simp only [hb, if_true]
      cases kv with
      | mk a b =>
        cases hka : (k == a)
        · simp [List.lookup, hka, ih]
        · simp [List.lookup, hka]

/-- A deleted key is absent. -/
theorem StrMap.lookup_delete_self (m : StrMap) (key : String) :
    (StrMap.delete m key).lookup key = none := by
  induction m with
  | nil => rfl
  | cons kv rest ih =>
    unfold StrMap.delete at ih ⊢
    by_cases hkv : kv.1 = key
    · rw [List.filter_cons]
      simp only [hkv, bne_self_eq_false, Bool.false_eq_true, if_false]
      exact ih
    · have hb : (kv.1 != key) = true := by simpa using hkv
      rw [List.filter_cons]
      simp only [hb, if_true]
      cases kv with
      | mk a b =>
        have hne : (key == a) = false := by
          rw [beq_eq_false_iff_ne]
          exact fun h => hkv h.symm
        simp [List.lookup, hne, ih]

/-! ## The claims -/

/-- C1. Full V1 pagination. The object store of the bucket follows the listing
contract over `stored` (the items under the prefix, in strictly increasing path
order, each path greater than the empty path and recovered by `paths.New` from
its string form), and its answers leave the state of the stores as it is. Then
the client that calls `ListObjects` with the empty delimiter and `maxKeys = 1`,
from the empty marker on, feeding each `NextMarker` back until `IsTruncated` is
false, terminates within `stored.length + 1` calls and has received exactly the
entries of the stored items, each once, in the order of the store: every item
that is not a prefix as an object, every other as a prefix. -/
theorem ListObjects_full_pagination [LinearOrder P] (ops : PathOps P) (B : Backend P σ H)
    (bucket pfx : String) (o : H) (stored : List (ListItem P)) (w : World P σ H)
    (hsorted : stored.Pairwise (fun a b => a.Path < b.Path))
    (hround : ∀ item ∈ stored, ops.New (ops.String item.Path) = item.Path)
    (hfirst : ∀ item ∈ stored, ops.New "" < item.Path)
    (hstore : B.bsGetObjectStore bucket w.store = ((o, none), w.store))
    (hlist : ∀ sa,
      B.osList o (some (ops.New pfx)) (some sa) none true 1 MetaFlags.All w.store =
        (((pageAfter stored (some sa) 1).1, (pageAfter stored (some sa) 1).2, none), w.store))
    (fuel : Nat) (hfuel : stored.length < fuel) :
    ∃ w1 : World P σ H, w1.store = w.store ∧
      listAllV1 ops B bucket pfx "" 1 fuel "" w =
        some (((stored.filter (fun i => !i.IsPrefix)).map (objectOf ops bucket pfx true),
          (stored.filter (fun i => i.IsPrefix)).map (prefixOf ops pfx true), none), w1) := by
  refine listAllV1_from ops B bucket pfx o w.store stored hsorted hround hstore hlist
    stored [] fuel "" w rfl ?_ hfuel rfl
  rw [List.filter_eq_self]
  intro a ha
  simpa using hfirst a ha

/-- C1, at the bucket holding the objects `a`, `b`, ..., `z` of the in-memory
backend: 27 calls suffice, and the client receives the 26 objects, in order. -/
theorem ListObjects_full_pagination_witness :
    ∃ w1 : World Path MemStore String, w1.store = (memWorld "b" alphabet).store ∧
      listAllV1 specPaths memBackend "b" "" "" 1 27 "" (memWorld "b" alphabet) =
        some (((alphabetItems.filter (fun i => !i.IsPrefix)).map
            (objectOf specPaths "b" "" true),
          (alphabetItems.filter (fun i => i.IsPrefix)).map (prefixOf specPaths "" true),
          none), w1) :=
  ListObjects_full_pagination specPaths memBackend "b" "" "b" alphabetItems
    (memWorld "b" alphabet) (by decide) (by decide) (by decide) rfl (fun _ => rfl) 27
    (by decide)

/-- C2, on the code. The bucket of the in-memory backend holds the objects
`a`, `a\x00` and `b`, in increasing path order. The first `ListObjectsV2` call
with `maxKeys = 1` returns the object `a` and the token `a\x00`; the stored
item that follows `a` is `a\x00`; the second call, given the token, returns
`b`: the stored object `a\x00` is skipped, where the claim has the second page
begin with the item that follows `a`. Paging through the same bucket with
`ListObjects`, the marker-based sibling, returns `a`, `a\x00` and `b`. In the
lexicographic order of segment sequences the same happens to every stored path
that extends the last returned one: on the bucket holding `a`, `a/b` and `b`
the token after `a` is `a\x00`, the second `ListObjectsV2` page is `b`, and
`a/b` is skipped, while `ListObjects` paging returns all three. -/
theorem ListObjectsV2_token_skips_successor :
    (((memWorld "b" ["a", "a\x00", "b"]).store.objects.map (fun x => x.item.Path)).Pairwise
        (fun p q => p < q) ∧
      (ListObjectsV2 specPaths memBackend "b" "" "" "" 1 false ""
        (memWorld "b" ["a", "a\x00", "b"])).1.1.Objects.map (fun x => x.Name) = ["a"] ∧
      (ListObjectsV2 specPaths memBackend "b" "" "" "" 1 false ""
        (memWorld "b" ["a", "a\x00", "b"])).1.1.NextContinuationToken = "a\x00" ∧
      (pageAfter ((memWorld "b" ["a", "a\x00", "b"]).store.objects.map (fun x => x.item))
        (some { segs := ["a"] }) 1).1.map (fun i => specPaths.String i.Path) = ["a\x00"] ∧
      (ListObjectsV2 specPaths memBackend "b" "" "a\x00" "" 1 false ""
        (ListObjectsV2 specPaths memBackend "b" "" "" "" 1 false ""
          (memWorld "b" ["a", "a\x00", "b"])).2).1.1.Objects.map (fun x => x.Name) = ["b"] ∧
      (listAllV1 specPaths memBackend "b" "" "" 1 4 "" (memWorld "b" ["a", "a\x00", "b"])).map
        (fun r => r.1.1.map (fun x => x.Name)) = some ["a", "a\x00", "b"]) ∧
    ((memWorldNested.store.objects.map (fun x => x.item.Path)).Pairwise (fun p q => p < q) ∧
      (ListObjectsV2 specPaths memBackend "b" "" "" "" 1 false ""
        memWorldNested).1.1.Objects.map (fun x => x.Name) = ["a"] ∧
      (ListObjectsV2 specPaths memBackend "b" "" "" "" 1 false ""
        memWorldNested).1.1.NextContinuationToken = "a\x00" ∧
      (pageAfter (memWorldNested.store.objects.map (fun x => x.item))
        (some { segs := ["a"] }) 1).1.map (fun i => specPaths.String i.Path) = ["a/b"] ∧
      (ListObjectsV2 specPaths memBackend "b" "" "a\x00" "" 1 false ""
        (ListObjectsV2 specPaths memBackend "b" "" "" "" 1 false ""
          memWorldNested).2).1.1.Objects.map (fun x => x.Name) = ["b"] ∧
      (listAllV1 specPaths memBackend "b" "" "" 1 4 "" memWorldNested).map
        (fun r => r.1.1.map (fun x => x.Name)) = some ["a", "a/b", "b"]) := by
  decide

/-- C3. Unsupported delimiter rejection. For a delimiter other than the empty
string and `/`, `ListObjects` and `ListObjectsV2` return the gateway error
"delimiter ... not supported" and leave the world as it is: the state of the
stores is untouched and no call is added to the call log, so neither
`GetObjectStore` nor `List` is invoked. For the delimiter `""` or `/` the first
thing either call does is to invoke `GetObjectStore`, and the error it returns,
if any, is the one `GetObjectStore` or `List` returned: the delimiter error is
not produced. -/
theorem unsupported_delimiter_rejected (ops : PathOps P) (B : Backend P σ H)
    (bucket pfx cursor delimiter : String) (maxKeys : Int) (fetchOwner : Bool)
    (startAfter : String) (w : World P σ H) :
    (delimiter ≠ "" → delimiter ≠ "/" →
      ListObjects ops B bucket pfx cursor delimiter maxKeys w =
        (({}, some (Error.gateway ("delimiter " ++ delimiter ++ " not supported"))), w) ∧
      ListObjectsV2 ops B bucket pfx cursor delimiter maxKeys fetchOwner startAfter w =
        (({ ContinuationToken := cursor },
          some (Error.gateway ("delimiter " ++ delimiter ++ " not supported"))), w)) ∧
    (delimiter = "" ∨ delimiter = "/" →
      (ListObjects ops B bucket pfx cursor delimiter maxKeys w).1.2 =
        (match (storeOf B bucket w).1.2 with
         | some err => some err
         | none => (pageV1 ops B bucket pfx cursor delimiter maxKeys w).1.2.2) ∧
      (ListObjectsV2 ops B bucket pfx cursor delimiter maxKeys fetchOwner startAfter w).1.2 =
        (match (storeOf B bucket w).1.2 with
         | some err => some err
         | none => (pageV2 ops B bucket pfx cursor delimiter maxKeys startAfter w).1.2.2) ∧
      (ListObjects ops B bucket pfx cursor delimiter maxKeys w).2.calls.take
        (w.calls.length + 1) = w.calls ++ [Call.bsGetObjectStore bucket] ∧
      (ListObjectsV2 ops B bucket pfx cursor delimiter maxKeys fetchOwner startAfter
        w).2.calls.take (w.calls.length + 1) = w.calls ++ [Call.bsGetObjectStore bucket]) := by
  constructor
  · intro h1 h2
    simp [ListObjects, ListObjectsV2, h1, h2]
  · intro hd
    cases ho : (storeOf B bucket w).1.2 with
    | some err =>
      rw [ListObjects_store_err ops B bucket pfx cursor delimiter maxKeys w hd err ho,
        ListObjectsV2_store_err ops B bucket pfx cursor delimiter maxKeys fetchOwner startAfter
          w hd err ho]
      simp [List.take_append_eq_append_take]
    | none =>
      refine ⟨?_, ?_, ?_, ?_⟩
      · cases hl : (pageV1 ops B bucket pfx cursor delimiter maxKeys w).1.2.2 with
        | none => rw [ListObjects_ok ops B bucket pfx cursor delimiter maxKeys w hd ho hl]
        | some err =>
          rw [ListObjects_list_err ops B bucket pfx cursor delimiter maxKeys w hd err ho hl]
      · cases hl : (pageV2 ops B bucket pfx cursor delimiter maxKeys startAfter w).1.2.2 with
        | none =>
          rw [ListObjectsV2_ok ops B bucket pfx cursor delimiter maxKeys fetchOwner startAfter
            w hd ho hl]
        | some err =>
          rw [ListObjectsV2_list_err ops B bucket pfx cursor delimiter maxKeys fetchOwner
            startAfter w hd err ho hl]
      · cases hl : (pageV1 ops B bucket pfx cursor delimiter maxKeys w).1.2.2 with
        | none =>
          rw [ListObjects_ok ops B bucket pfx cursor delimiter maxKeys w hd ho hl]
          simp [List.take_append_eq_append_take]
        | some err =>
          rw [ListObjects_list_err ops B bucket pfx cursor delimiter maxKeys w hd err ho hl]
          simp [List.take_append_eq_append_take]
      · cases hl : (pageV2 ops B bucket pfx cursor delimiter maxKeys startAfter w).1.2.2 with
        | none =>
          rw [ListObjectsV2_ok ops B bucket pfx cursor delimiter maxKeys fetchOwner startAfter
            w hd ho hl]
          simp [List.take_append_eq_append_take]
        | some err =>
          rw [ListObjectsV2_list_err ops B bucket pfx cursor delimiter maxKeys fetchOwner
            startAfter w hd err ho hl]
          simp [List.take_append_eq_append_take]

/-- C3, at the delimiter `,` and at the delimiter `/` over the in-memory
backend: the call with `,` fails and logs no call; the call with `/` succeeds. -/
theorem unsupported_delimiter_rejected_witness :
    (ListObjects specPaths memBackend "b" "" "" "," 1 (memWorld "b" ["a"]) =
        (({}, some (Error.gateway ("delimiter " ++ "," ++ " not supported"))),
          memWorld "b" ["a"]) ∧
      ListObjectsV2 specPaths memBackend "b" "" "" "," 1 false "" (memWorld "b" ["a"]) =
        (({ ContinuationToken := "" },
          some (Error.gateway ("delimiter " ++ "," ++ " not supported"))),
          memWorld "b" ["a"])) ∧
    (ListObjects specPaths memBackend "b" "" "" "/" 1 (memWorld "b" ["a"])).1.2 = none :=
  ⟨(unsupported_delimiter_rejected specPaths memBackend "b" "" "" "," 1 false ""
      (memWorld "b" ["a"])).1 (by decide) (by decide),
    ((unsupported_delimiter_rejected specPaths memBackend "b" "" "" "/" 1 false ""
      (memWorld "b" ["a"])).2 (Or.inr rfl)).1⟩

/-- C4. V1 cursor production. For every `ListObjects` call that returns no
error: `IsTruncated` is the flag `more` of the object store; when `more` is
true, `NextMarker` is the string form of the path of the last item of the page
the store returned; when `more` is false, `NextMarker` is empty; and when the
store returned no item and `more` false, the result has no object, no prefix,
`IsTruncated` false and no `NextMarker`. -/
theorem ListObjects_cursor (ops : PathOps P) (B : Backend P σ H)
    (bucket pfx marker delimiter : String) (maxKeys : Int) (w : World P σ H)
    (hok : (ListObjects ops B bucket pfx marker delimiter maxKeys w).1.2 = none) :
    (ListObjects ops B bucket pfx marker delimiter maxKeys w).1.1.IsTruncated =
      (pageV1 ops B bucket pfx marker delimiter maxKeys w).1.2.1 ∧
    ((pageV1 ops B bucket pfx marker delimiter maxKeys w).1.2.1 = true →
      ∀ last, (pageV1 ops B bucket pfx marker delimiter maxKeys w).1.1.getLast? = some last →
        (ListObjects ops B bucket pfx marker delimiter maxKeys w).1.1.NextMarker =
          ops.String last.Path) ∧
    ((pageV1 ops B bucket pfx marker delimiter maxKeys w).1.2.1 = false →
      (ListObjects ops B bucket pfx marker delimiter maxKeys w).1.1.NextMarker = "") ∧
    ((pageV1 ops B bucket pfx marker delimiter maxKeys w).1.1 = [] →
      (pageV1 ops B bucket pfx marker delimiter maxKeys w).1.2.1 = false →
      (ListObjects ops B bucket pfx marker delimiter maxKeys w).1.1.Objects = [] ∧
      (ListObjects ops B bucket pfx marker delimiter maxKeys w).1.1.Prefixes = [] ∧
      (ListObjects ops B bucket pfx marker delimiter maxKeys w).1.1.IsTruncated = false ∧
      (ListObjects ops B bucket pfx marker delimiter maxKeys w).1.1.NextMarker = "") := by
  obtain ⟨hd, ho, hl⟩ := ListObjects_success ops B bucket pfx marker delimiter maxKeys w hok
  rw [ListObjects_ok ops B bucket pfx marker delimiter maxKeys w hd ho hl]
  refine ⟨rfl, ?_, ?_, ?_⟩
  · intro hm last hlast
    simp [hm, hlast]
  · intro hm
    simp [hm]
  · intro hnil hm
    simp [hnil, hm]

/-- C4, on the bucket holding `a`, `b` and `c` of the in-memory backend, asked
for one key: the page is `a`, more remain, and the next marker is `a`, the last
returned item, not `c`, the last stored one. -/
theorem ListObjects_cursor_witness :
    (ListObjects specPaths memBackend "b" "" "" "" 1 (memWorld "b" ["a", "b", "c"])).1.1.IsTruncated
      = true ∧
    (ListObjects specPaths memBackend "b" "" "" "" 1 (memWorld "b" ["a", "b", "c"])).1.1.NextMarker
      = "a" :=
  ⟨((ListObjects_cursor specPaths memBackend "b" "" "" "" 1 (memWorld "b" ["a", "b", "c"])
      (by decide)).1).trans (by decide),
    (ListObjects_cursor specPaths memBackend "b" "" "" "" 1 (memWorld "b" ["a", "b", "c"])
      (by decide)).2.1 (by decide) { Path := { segs := ["a"] } } (by decide)⟩

/-- C5. V2 cursor production. For every `ListObjectsV2` call that returns no
error: the field `ContinuationToken` of the result is the `continuationToken`
of the request; when the page the store returned has a last item and `more` is
true, `NextContinuationToken` is the string form of that item's path followed
by the one-byte sentinel; and when `more` is false, `NextContinuationToken` is
empty. -/
theorem ListObjectsV2_cursor (ops : PathOps P) (B : Backend P σ H)
    (bucket pfx continuationToken delimiter : String) (maxKeys : Int) (fetchOwner : Bool)
    (startAfter : String) (w : World P σ H)
    (hok : (ListObjectsV2 ops B bucket pfx continuationToken delimiter maxKeys fetchOwner
      startAfter w).1.2 = none) :
    (ListObjectsV2 ops B bucket pfx continuationToken delimiter maxKeys fetchOwner
      startAfter w).1.1.ContinuationToken = continuationToken ∧
    (∀ last,
      (pageV2 ops B bucket pfx continuationToken delimiter maxKeys startAfter w).1.1.getLast?
        = some last →
      (pageV2 ops B bucket pfx continuationToken delimiter maxKeys startAfter w).1.2.1 = true →
      (ListObjectsV2 ops B bucket pfx continuationToken delimiter maxKeys fetchOwner
        startAfter w).1.1.NextContinuationToken = ops.String last.Path ++ "\x00" ∧
      ("\x00" : String).length = 1 ∧ ("\x00" : String).utf8ByteSize = 1) ∧
    ((pageV2 ops B bucket pfx continuationToken delimiter maxKeys startAfter w).1.2.1 = false →
      (ListObjectsV2 ops B bucket pfx continuationToken delimiter maxKeys fetchOwner
        startAfter w).1.1.NextContinuationToken = "") := by
  obtain ⟨hd, ho, hl⟩ := ListObjectsV2_success ops B bucket pfx continuationToken delimiter
    maxKeys fetchOwner startAfter w hok
  rw [ListObjectsV2_ok ops B bucket pfx continuationToken delimiter maxKeys fetchOwner
    startAfter w hd ho hl]
  refine ⟨rfl, ?_, ?_⟩
  · intro last hlast hm
    refine ⟨?_, by decide, by decide⟩
    simp [hm, hlast]
  · intro hm
    simp [hm]

/-- C5, on the bucket holding `a`, `b` and `c` of the in-memory backend, asked
for one key after the token `0`: the token is echoed, and the next token is the
path `a` followed by the sentinel. -/
theorem ListObjectsV2_cursor_witness :
    (ListObjectsV2 specPaths memBackend "b" "" "0" "" 1 false ""
      (memWorld "b" ["a", "b", "c"])).1.1.ContinuationToken = "0" ∧
    (ListObjectsV2 specPaths memBackend "b" "" "0" "" 1 false ""
      (memWorld "b" ["a", "b", "c"])).1.1.NextContinuationToken = "a" ++ "\x00" :=
  ⟨(ListObjectsV2_cursor specPaths memBackend "b" "" "0" "" 1 false ""
      (memWorld "b" ["a", "b", "c"]) (by decide)).1,
    ((ListObjectsV2_cursor specPaths memBackend "b" "" "0" "" 1 false ""
      (memWorld "b" ["a", "b", "c"]) (by decide)).2.1 { Path := { segs := ["a"] } }
        (by decide) (by decide)).1⟩

/-- C6. V2 cursor source precedence. When the delimiter is supported and
`GetObjectStore` succeeds, `ListObjectsV2` makes exactly one `List` call, under
the path of the prefix, and the start-after path `sa` it hands over is: the
path built from `continuationToken` when that is not empty, whatever
`startAfter` is; the path built from `startAfter` when `continuationToken` is
empty and `startAfter` is not; and the nil path when both are empty. -/
theorem ListObjectsV2_start_after_source (ops : PathOps P) (B : Backend P σ H)
    (bucket pfx continuationToken delimiter : String) (maxKeys : Int) (fetchOwner : Bool)
    (startAfter : String) (w : World P σ H)
    (hd : delimiter = "" ∨ delimiter = "/")
    (ho : (storeOf B bucket w).1.2 = none) :
    ∃ sa : Option P,
      (ListObjectsV2 ops B bucket pfx continuationToken delimiter maxKeys fetchOwner
        startAfter w).2.calls =
        w.calls ++ [Call.bsGetObjectStore bucket,
          Call.osList (storeOf B bucket w).1.1 (some (ops.New pfx)) sa none
            (decide (delimiter = "")) maxKeys MetaFlags.All] ∧
      (continuationToken ≠ "" → sa = some (ops.New continuationToken)) ∧
      (continuationToken = "" → startAfter ≠ "" → sa = some (ops.New startAfter)) ∧
      (continuationToken = "" → startAfter = "" → sa = none) := by
  refine ⟨startAfterV2 ops continuationToken startAfter, ?_, ?_, ?_, ?_⟩
  · cases hl : (pageV2 ops B bucket pfx continuationToken delimiter maxKeys startAfter
        w).1.2.2 with
    | none =>
      rw [ListObjectsV2_ok ops B bucket pfx continuationToken delimiter maxKeys fetchOwner
        startAfter w hd ho hl]
    | some err =>
      rw [ListObjectsV2_list_err ops B bucket pfx continuationToken delimiter maxKeys
        fetchOwner startAfter w hd err ho hl]
  · intro hc
    simp [startAfterV2, hc]
  · intro hc hs
    simp [startAfterV2, hc, hs]
  · intro hc hs
    simp [startAfterV2, hc, hs]

/-- C6, on the in-memory backend, with both a token and a start-after value:
the one `List` call is made after the path of the token. -/
theorem ListObjectsV2_start_after_source_witness :
    ∃ sa : Option Path,
      (ListObjectsV2 specPaths memBackend "b" "" "a" "" 1 false "c"
        (memWorld "b" ["a", "b", "c"])).2.calls =
        (memWorld "b" ["a", "b", "c"]).calls ++ [Call.bsGetObjectStore "b",
          Call.osList (storeOf memBackend "b" (memWorld "b" ["a", "b", "c"])).1.1
            (some (specPaths.New "")) sa none (decide (("" : String) = "")) 1 MetaFlags.All] ∧
      (("a" : String) ≠ "" → sa = some (specPaths.New "a")) ∧
      (("a" : String) = "" → ("c" : String) ≠ "" → sa = some (specPaths.New "c")) ∧
      (("a" : String) = "" → ("c" : String) = "" → sa = none) :=
  ListObjectsV2_start_after_source specPaths memBackend "b" "" "a" "" 1 false "c"
    (memWorld "b" ["a", "b", "c"]) (Or.inl rfl) rfl

/-- C7. Path rewriting. For every `ListObjects` call and every `ListObjectsV2`
call that returns no error, over the items of the page the object store
returned, in their order: with the delimiter `""` the names of `Objects` are
the string forms of the paths of the items that are not prefixes with the
request prefix prepended, and `Prefixes` are those of the items that are
prefixes, each followed by `/`; with the delimiter `/` the same holds with the
paths as the store gave them, nothing prepended; and every entry of `Objects`
has `IsDir` false. -/
theorem listing_path_rewriting (ops : PathOps P) (B : Backend P σ H)
    (bucket pfx marker delimiter : String) (maxKeys : Int) (fetchOwner : Bool)
    (startAfter : String) (w : World P σ H) :
    ((ListObjects ops B bucket pfx marker delimiter maxKeys w).1.2 = none →
      (delimiter = "" →
        (ListObjects ops B bucket pfx marker delimiter maxKeys w).1.1.Objects.map (fun x => x.Name) =
          ((pageV1 ops B bucket pfx marker delimiter maxKeys w).1.1.filter (fun i => !i.IsPrefix)).map
            (fun i => ops.String (ops.Prepend i.Path pfx)) ∧
        (ListObjects ops B bucket pfx marker delimiter maxKeys w).1.1.Prefixes =
          ((pageV1 ops B bucket pfx marker delimiter maxKeys w).1.1.filter (fun i => i.IsPrefix)).map
            (fun i => ops.String (ops.Prepend i.Path pfx) ++ "/")) ∧
      (delimiter = "/" →
        (ListObjects ops B bucket pfx marker delimiter maxKeys w).1.1.Objects.map (fun x => x.Name) =
          ((pageV1 ops B bucket pfx marker delimiter maxKeys w).1.1.filter (fun i => !i.IsPrefix)).map (fun i => ops.String i.Path) ∧
        (ListObjects ops B bucket pfx marker delimiter maxKeys w).1.1.Prefixes =
          ((pageV1 ops B bucket pfx marker delimiter maxKeys w).1.1.filter (fun i => i.IsPrefix)).map (fun i => ops.String i.Path ++ "/")) ∧
      (∀ x ∈ (ListObjects ops B bucket pfx marker delimiter maxKeys w).1.1.Objects, x.IsDir = false)) ∧
    ((ListObjectsV2 ops B bucket pfx marker delimiter maxKeys fetchOwner startAfter w).1.2 = none →
      (delimiter = "" →
        (ListObjectsV2 ops B bucket pfx marker delimiter maxKeys fetchOwner startAfter w).1.1.Objects.map (fun x => x.Name) =
          ((pageV2 ops B bucket pfx marker delimiter maxKeys startAfter w).1.1.filter (fun i => !i.IsPrefix)).map
            (fun i => ops.String (ops.Prepend i.Path pfx)) ∧
        (ListObjectsV2 ops B bucket pfx marker delimiter maxKeys fetchOwner startAfter w).1.1.Prefixes =
          ((pageV2 ops B bucket pfx marker delimiter maxKeys startAfter w).1.1.filter (fun i => i.IsPrefix)).map
            (fun i => ops.String (ops.Prepend i.Path pfx) ++ "/")) ∧
      (delimiter = "/" →
        (ListObjectsV2 ops B bucket pfx marker delimiter maxKeys fetchOwner startAfter w).1.1.Objects.map (fun x => x.Name) =
          ((pageV2 ops B bucket pfx marker delimiter maxKeys startAfter w).1.1.filter (fun i => !i.IsPrefix)).map (fun i => ops.String i.Path) ∧
        (ListObjectsV2 ops B bucket pfx marker delimiter maxKeys fetchOwner startAfter w).1.1.Prefixes =
          ((pageV2 ops B bucket pfx marker delimiter maxKeys startAfter w).1.1.filter (fun i => i.IsPrefix)).map (fun i => ops.String i.Path ++ "/")) ∧
      (∀ x ∈ (ListObjectsV2 ops B bucket pfx marker delimiter maxKeys fetchOwner startAfter w).1.1.Objects, x.IsDir = false)) := by
  constructor
  · intro hok
    obtain ⟨hd, ho, hl⟩ := ListObjects_success ops B bucket pfx marker delimiter maxKeys w hok
    rw [ListObjects_ok ops B bucket pfx marker delimiter maxKeys w hd ho hl]
    refine ⟨?_, ?_, ?_⟩
    · intro hdel
      subst hdel
      simp [objectOf, prefixOf, Function.comp_def]
    · intro hdel
      subst hdel
      simp [objectOf, prefixOf, Function.comp_def]
    · intro x hx
      simp only [List.mem_map] at hx
      obtain ⟨i, _, rfl⟩ := hx
      rfl
  · intro hok
    obtain ⟨hd, ho, hl⟩ := ListObjectsV2_success ops B bucket pfx marker delimiter maxKeys
      fetchOwner startAfter w hok
    rw [ListObjectsV2_ok ops B bucket pfx marker delimiter maxKeys fetchOwner startAfter w
      hd ho hl]
    refine ⟨?_, ?_, ?_⟩
    · intro hdel
      subst hdel
      simp [objectOf, prefixOf, Function.comp_def]
    · intro hdel
      subst hdel
      simp [objectOf, prefixOf, Function.comp_def]
    · intro x hx
      simp only [List.mem_map] at hx
      obtain ⟨i, _, rfl⟩ := hx
      rfl

/-- C7, on the bucket of the in-memory backend that lists the prefix `d` and
the object `f`, under the request prefix `x`: the recursive `ListObjects`
reports `x/f` and `x/d/`, the single-level `ListObjectsV2` reports `f` and
`d/`. -/
theorem listing_path_rewriting_witness :
    ((ListObjects specPaths memBackend "b" "x" "" "" 10 memWorldDir).1.1.Objects.map
        (fun x => x.Name) = ["x/f"] ∧
      (ListObjects specPaths memBackend "b" "x" "" "" 10 memWorldDir).1.1.Prefixes = ["x/d/"]) ∧
    ((ListObjectsV2 specPaths memBackend "b" "x" "" "/" 10 false "" memWorldDir).1.1.Objects.map
        (fun x => x.Name) = ["f"] ∧
      (ListObjectsV2 specPaths memBackend "b" "x" "" "/" 10 false "" memWorldDir).1.1.Prefixes
        = ["d/"]) :=
  ⟨⟨((((listing_path_rewriting specPaths memBackend "b" "x" "" "" 10 false "" memWorldDir).1
        (by decide)).1 rfl).1).trans (by decide),
      ((((listing_path_rewriting specPaths memBackend "b" "x" "" "" 10 false "" memWorldDir).1
        (by decide)).1 rfl).2).trans (by decide)⟩,
    ⟨((((listing_path_rewriting specPaths memBackend "b" "x" "" "/" 10 false "" memWorldDir).2
        (by decide)).2.1 rfl).1).trans (by decide),
      ((((listing_path_rewriting specPaths memBackend "b" "x" "" "/" 10 false "" memWorldDir).2
        (by decide)).2.1 rfl).2).trans (by decide)⟩⟩

/-- C8. DeleteBucket outcome. With `getOf` the answer of the bucket store's
`Get`, `storeAfterGet` that of `GetObjectStore` and `probeOf` that of the
recursive `List` with limit 1, each made in the state the call before it left:
a not-found failure of `Get` gives `BucketNotFound`; any other failure of
`Get`, and any failure of `GetObjectStore` or of `List`, is returned as it is;
a listing with at least one item gives `BucketNotEmpty`; in all these cases the
calls made are the ones up to the deciding call and nothing else, so `Delete`
is not called and the state of the stores is the one those calls left. Only
when the listing is empty is `Delete` called, once, after the three calls, and
its result is the result of `DeleteBucket`. -/
theorem DeleteBucket_outcome (B : Backend P σ H) (bucket : String) (w : World P σ H) :
    (∀ err, (getOf B bucket w).1.2 = some err → ErrKeyNotFound.Has (some err) = true →
      DeleteBucket B bucket w =
        (some (Error.BucketNotFound bucket),
          { store := (getOf B bucket w).2, calls := w.calls ++ [Call.bsGet bucket] })) ∧
    (∀ err, (getOf B bucket w).1.2 = some err → ErrKeyNotFound.Has (some err) = false →
      DeleteBucket B bucket w =
        (some err,
          { store := (getOf B bucket w).2, calls := w.calls ++ [Call.bsGet bucket] })) ∧
    ((getOf B bucket w).1.2 = none →
      (∀ err, (storeAfterGet B bucket w).1.2 = some err →
        DeleteBucket B bucket w =
          (some err,
            { store := (storeAfterGet B bucket w).2
              calls := w.calls ++ [Call.bsGet bucket, Call.bsGetObjectStore bucket] })) ∧
      ((storeAfterGet B bucket w).1.2 = none →
        (∀ err, (probeOf B bucket w).1.2.2 = some err →
          DeleteBucket B bucket w =
            (some err,
              { store := (probeOf B bucket w).2
                calls := w.calls ++ [Call.bsGet bucket, Call.bsGetObjectStore bucket,
                  probeCall B bucket w] })) ∧
        ((probeOf B bucket w).1.2.2 = none →
          ((probeOf B bucket w).1.1 ≠ [] →
            DeleteBucket B bucket w =
              (some (Error.BucketNotEmpty bucket),
                { store := (probeOf B bucket w).2
                  calls := w.calls ++ [Call.bsGet bucket, Call.bsGetObjectStore bucket,
                    probeCall B bucket w] })) ∧
          ((probeOf B bucket w).1.1 = [] →
            DeleteBucket B bucket w =
              ((deleteOf B bucket w).1,
                { store := (deleteOf B bucket w).2
                  calls := w.calls ++ [Call.bsGet bucket, Call.bsGetObjectStore bucket,
                    probeCall B bucket w, Call.bsDelete bucket] }))))) := by
  unfold deleteOf probeCall probeOf storeAfterGet getOf
  refine ⟨?_, ?_, ?_⟩
  · intro err hg hnf
    simp [DeleteBucket, Backend.callGet, hg, hnf]
  · intro err hg hnf
    simp [DeleteBucket, Backend.callGet, hg, hnf]
  · intro hg
    refine ⟨?_, ?_⟩
    · intro err ho
      simp [DeleteBucket, Backend.callGet, Backend.callGetObjectStore, hg, ho]
    · intro ho
      refine ⟨?_, ?_⟩
      · intro err hl
        simp [DeleteBucket, Backend.callGet, Backend.callGetObjectStore, Backend.callObjList,
          hg, ho, hl]
      · intro hl
        refine ⟨?_, ?_⟩
        · intro hne
          simp [DeleteBucket, Backend.callGet, Backend.callGetObjectStore,
            Backend.callObjList, hg, ho, hl, hne]
        · intro hnil
          simp [DeleteBucket, Backend.callGet, Backend.callGetObjectStore,
            Backend.callObjList, Backend.callDelete, hg, ho, hl, hnil]

/-- C8, on the in-memory backend: `DeleteBucket` on the bucket `b` that holds
the object `a` fails with `BucketNotEmpty` and leaves the stores as they were;
on the bucket `b` with no object it succeeds, and the bucket is gone; on the
missing bucket `c` it fails with `BucketNotFound`. -/
theorem DeleteBucket_outcome_witness :
    (DeleteBucket memBackend "b" (memWorld "b" ["a"])).1 = some (Error.BucketNotEmpty "b") ∧
    (DeleteBucket memBackend "b" (memWorld "b" ["a"])).2.store.buckets = [{ Bucket := "b" }] ∧
    (DeleteBucket memBackend "b" (memWorld "b" [])).1 = none ∧
    (DeleteBucket memBackend "b" (memWorld "b" [])).2.store.buckets = [] ∧
    (DeleteBucket memBackend "c" (memWorld "b" [])).1 = some (Error.BucketNotFound "c") :=
  ⟨congrArg Prod.fst
      (((((DeleteBucket_outcome memBackend "b" (memWorld "b" ["a"])).2.2 rfl).2 rfl).2 rfl).1
        (by decide)),
    (congrArg (fun r => r.2.store.buckets)
      (((((DeleteBucket_outcome memBackend "b" (memWorld "b" ["a"])).2.2 rfl).2 rfl).2 rfl).1
        (by decide))).trans (by decide),
    (congrArg Prod.fst
      (((((DeleteBucket_outcome memBackend "b" (memWorld "b" [])).2.2 rfl).2 rfl).2 rfl).2
        rfl)).trans (by decide),
    (congrArg (fun r => r.2.store.buckets)
      (((((DeleteBucket_outcome memBackend "b" (memWorld "b" [])).2.2 rfl).2 rfl).2 rfl).2
        rfl)).trans (by decide),
    congrArg Prod.fst
      ((DeleteBucket_outcome memBackend "c" (memWorld "b" [])).1 memNotFound rfl rfl)⟩

/-- C9. MakeBucketWithLocation outcome. With `getOf` the answer of the bucket
store's `Get` and `putOf` that of `Put` in the state `Get` left: when `Get`
succeeds the call returns `BucketAlreadyExists` and only `Get` was called; when
`Get` fails with an error that is not a not-found error, that error is
returned and only `Get` was called; when `Get` fails with not-found, `Put` is
called once, after `Get`, and its error (or nil) is returned. So, unless the
store itself hands back the value `BucketAlreadyExists` as the error of `Get`
or `Put`, the call returns `BucketAlreadyExists` exactly when `Get` succeeds.
And where `Get` fails with not-found, `Put` succeeds and `Get` succeeds in the
state `Put` left, the call succeeds and `GetBucketInfo`, called next, succeeds
and names the bucket. -/
theorem MakeBucketWithLocation_outcome (B : Backend P σ H) (bucket location : String)
    (w : World P σ H) :
    ((getOf B bucket w).1.2 = none →
      MakeBucketWithLocation B bucket location w =
        (some (Error.BucketAlreadyExists bucket),
          { store := (getOf B bucket w).2, calls := w.calls ++ [Call.bsGet bucket] })) ∧
    (∀ err, (getOf B bucket w).1.2 = some err → ErrKeyNotFound.Has (some err) = false →
      MakeBucketWithLocation B bucket location w =
        (some err,
          { store := (getOf B bucket w).2, calls := w.calls ++ [Call.bsGet bucket] })) ∧
    (∀ err, (getOf B bucket w).1.2 = some err → ErrKeyNotFound.Has (some err) = true →
      MakeBucketWithLocation B bucket location w =
        ((putOf B bucket w).1.2,
          { store := (putOf B bucket w).2
            calls := w.calls ++ [Call.bsGet bucket, Call.bsPut bucket] })) ∧
    ((getOf B bucket w).1.2 ≠ some (Error.BucketAlreadyExists bucket) →
      (putOf B bucket w).1.2 ≠ some (Error.BucketAlreadyExists bucket) →
      ((MakeBucketWithLocation B bucket location w).1 = some (Error.BucketAlreadyExists bucket)
        ↔ (getOf B bucket w).1.2 = none)) ∧
    (∀ err, (getOf B bucket w).1.2 = some err → ErrKeyNotFound.Has (some err) = true →
      (putOf B bucket w).1.2 = none →
      (B.bsGet bucket (putOf B bucket w).2).1.2 = none →
      (MakeBucketWithLocation B bucket location w).1 = none ∧
      (GetBucketInfo B bucket (MakeBucketWithLocation B bucket location w).2).1.2 = none ∧
      (GetBucketInfo B bucket (MakeBucketWithLocation B bucket location w).2).1.1.Name
        = bucket) := by
  have h1 : (getOf B bucket w).1.2 = none →
      MakeBucketWithLocation B bucket location w =
        (some (Error.BucketAlreadyExists bucket),
          { store := (getOf B bucket w).2, calls := w.calls ++ [Call.bsGet bucket] }) := by
    intro hg
    unfold getOf at hg ⊢
    simp [MakeBucketWithLocation, Backend.callGet, hg]
  have h2 : ∀ err, (getOf B bucket w).1.2 = some err →
      ErrKeyNotFound.Has (some err) = false →
      MakeBucketWithLocation B bucket location w =
        (some err,
          { store := (getOf B bucket w).2, calls := w.calls ++ [Call.bsGet bucket] }) := by
    intro err hg hnf
    unfold getOf at hg ⊢
    simp [MakeBucketWithLocation, Backend.callGet, hg, hnf]
  have h3 : ∀ err, (getOf B bucket w).1.2 = some err →
      ErrKeyNotFound.Has (some err) = true →
      MakeBucketWithLocation B bucket location w =
        ((putOf B bucket w).1.2,
          { store := (putOf B bucket w).2
            calls := w.calls ++ [Call.bsGet bucket, Call.bsPut bucket] }) := by
    intro err hg hnf
    unfold putOf getOf at *
    simp [MakeBucketWithLocation, Backend.callGet, Backend.callPut, hg, hnf]
  refine ⟨h1, h2, h3, ?_, ?_⟩
  · intro hgne hpne
    constructor
    · intro hres
      cases hg : (getOf B bucket w).1.2 with
      | none => rfl
      | some err =>
        exfalso
        cases hnf : ErrKeyNotFound.Has (some err) with
        | false =>
          rw [h2 err hg hnf] at hres
          exact hgne (hg.trans hres)
        | true =>
          rw [h3 err hg hnf] at hres
          exact hpne hres
    · intro hg
      rw [h1 hg]
  · intro err hg hnf hp hretr
    rw [h3 err hg hnf]
    refine ⟨hp, ?_, ?_⟩
    · simp [GetBucketInfo, Backend.callGet, hretr]
    · simp [GetBucketInfo, Backend.callGet, hretr]

/-- C9, on the in-memory backend that holds the bucket `b`: making `b` fails
with `BucketAlreadyExists`; making the fresh name `c` succeeds, and
`GetBucketInfo` of `c`, called next, succeeds. -/
theorem MakeBucketWithLocation_outcome_witness :
    (MakeBucketWithLocation memBackend "b" "" (memWorld "b" [])).1
      = some (Error.BucketAlreadyExists "b") ∧
    (MakeBucketWithLocation memBackend "c" "" (memWorld "b" [])).1 = none ∧
    (GetBucketInfo memBackend "c"
      (MakeBucketWithLocation memBackend "c" "" (memWorld "b" [])).2).1.2 = none ∧
    (GetBucketInfo memBackend "c"
      (MakeBucketWithLocation memBackend "c" "" (memWorld "b" [])).2).1.1.Name = "c" :=
  ⟨congrArg Prod.fst ((MakeBucketWithLocation_outcome memBackend "b" "" (memWorld "b" [])).1 rfl),
    (MakeBucketWithLocation_outcome memBackend "c" "" (memWorld "b" [])).2.2.2.2 memNotFound
      rfl rfl rfl (by decide)⟩

/-- C10. PutObject content-type extraction. When `GetObjectStore` succeeds,
`PutObject` makes one `Put` call on the object store, with the path of the
object, the data, no expiration (the zero time) and a metadata record `sm`
such that: `sm.ContentType` is the value of the metadata map under
`content-type`, the empty string when the key is absent; `sm.UserDefined` is
the metadata map without its pairs of key `content-type`, the other pairs kept
as they are, in order; so the key `content-type` is absent from it and every
other key has the value it had. And when the store answers `Put` with the
content type and the user-defined mapping it was handed, the `ObjectInfo`
returned carries that content type and that mapping, in which `content-type`
is not a key. -/
theorem PutObject_content_type (ops : PathOps P) (B : Backend P σ H) (bucket object : String)
    (data : ByteStream) (metadata : StrMap) (w : World P σ H)
    (ho : (storeOf B bucket w).1.2 = none) :
    ∃ sm : SerializableMeta,
      (PutObject ops B bucket object data metadata w).2.calls =
        w.calls ++ [Call.bsGetObjectStore bucket,
          Call.osPut (storeOf B bucket w).1.1 (ops.New object) data sm 0] ∧
      sm.ContentType = (metadata.lookup "content-type").getD "" ∧
      sm.UserDefined = metadata.filter (fun kv => kv.1 != "content-type") ∧
      (∀ kv, kv ∈ sm.UserDefined ↔ kv ∈ metadata ∧ kv.1 ≠ "content-type") ∧
      (∀ k, k ≠ "content-type" → sm.UserDefined.lookup k = metadata.lookup k) ∧
      sm.UserDefined.lookup "content-type" = none ∧
      ((B.osPut (storeOf B bucket w).1.1 (ops.New object) data sm 0
          (storeOf B bucket w).2).1.1.ContentType = sm.ContentType →
        (B.osPut (storeOf B bucket w).1.1 (ops.New object) data sm 0
          (storeOf B bucket w).2).1.1.UserDefined = sm.UserDefined →
        (PutObject ops B bucket object data metadata w).1.1.ContentType =
          (metadata.lookup "content-type").getD "" ∧
        (PutObject ops B bucket object data metadata w).1.1.UserDefined =
          metadata.filter (fun kv => kv.1 != "content-type") ∧
        "content-type" ∉ (PutObject ops B bucket object data metadata w).1.1.UserDefined.map
          Prod.fst) := by
  unfold storeOf at *
  refine ⟨{ ContentType := metadata.index "content-type"
            UserDefined := metadata.delete "content-type" }, ?_, rfl, rfl, ?_, ?_, ?_, ?_⟩
  · simp [PutObject, putObject, Backend.callGetObjectStore, Backend.callObjPut, ho]
  · intro kv
    simp [StrMap.delete]
  · intro k hk
    exact StrMap.lookup_delete_ne metadata k "content-type" hk
  · exact StrMap.lookup_delete_self metadata "content-type"
  · intro hct hud
    simp only [PutObject, putObject, Backend.callGetObjectStore, Backend.callObjPut, ho, hct,
      hud]
    refine ⟨rfl, rfl, ?_⟩
    simp [StrMap.delete]

/-- C10, on the in-memory backend, with the metadata `content-type: text/plain`
and `color: red`: the object info returned has the content type `text/plain`
and the single user-defined pair `color: red`. -/
theorem PutObject_content_type_witness :
    (PutObject specPaths memBackend "b" "k" [1, 2, 3]
      [("content-type", "text/plain"), ("color", "red")] (memWorld "b" [])).1.1.ContentType
      = "text/plain" ∧
    (PutObject specPaths memBackend "b" "k" [1, 2, 3]
      [("content-type", "text/plain"), ("color", "red")] (memWorld "b" [])).1.1.UserDefined
      = [("color", "red")] := by
  obtain ⟨sm, _, hct, hud, _, _, _, hecho⟩ :=
    PutObject_content_type specPaths memBackend "b" "k" [1, 2, 3]
      [("content-type", "text/plain"), ("color", "red")] (memWorld "b" []) rfl
  have h := hecho rfl rfl
  exact ⟨h.1.trans (by decide), h.2.1.trans (by decide)⟩

/-- The ranger of the in-memory backend reads the bytes it is made of. -/
theorem memRanger_reads (data : ByteStream) : (memRanger data).Reads data := by
  refine ⟨rfl, ?_⟩
  intro offset length h0 h1 h2
  have hc : ¬ (offset < 0 ∨ length < 0 ∨ (data.length : Int) < offset + length) := by omega
  simp only [memRanger, hc, if_false]

/-- `getObject` when `GetObjectStore` succeeds: the ranger and the error are
those of the object store's `Get`. -/
theorem getObject_ok (ops : PathOps P) (B : Backend P σ H) (bucket object : String)
    (w : World P σ H) (ho : (storeOf B bucket w).1.2 = none) :
    getObject ops B bucket object w =
      ((some (objGetOf ops B bucket object w).1.1, (objGetOf ops B bucket object w).1.2.2),
        { store := (objGetOf ops B bucket object w).2
          calls := w.calls ++ [Call.bsGetObjectStore bucket,
            Call.osGet (storeOf B bucket w).1.1 (ops.New object)] }) := by
  unfold objGetOf storeOf at *
  simp [getObject, Backend.callGetObjectStore, Backend.callObjGet, ho]

/-- `getObject` when `GetObjectStore` fails. -/
theorem getObject_store_err (ops : PathOps P) (B : Backend P σ H) (bucket object : String)
    (w : World P σ H) (err : Error) (ho : (storeOf B bucket w).1.2 = some err) :
    getObject ops B bucket object w =
      ((none, some err),
        { store := (storeOf B bucket w).2
          calls := w.calls ++ [Call.bsGetObjectStore bucket] }) := by
  unfold storeOf at *
  simp [getObject, Backend.callGetObjectStore, ho]

/-- In the range of `int64`, the `int64` value of an integer is the integer. -/
theorem wrapInt64_of_range (x : Int) (h0 : 0 ≤ x) (h1 : x < 2 ^ 63) : wrapInt64 x = x := by
  unfold wrapInt64
  have e63 : (2 : Int) ^ 63 = 9223372036854775808 := by norm_num
  have e64 : (2 : Int) ^ 64 = 18446744073709551616 := by norm_num
  rw [e63] at h1 ⊢
  rw [e64]
  omega

/-- C11. GetObject open-ended range. `GetObjectStore` and the object store's
`Get` succeed, and the ranger `Get` returned reads the bytes `data` of the
object, `n` of them (`n` an `int64`). Then for every `startOffset` with
`0 ≤ startOffset ≤ n`, `GetObject` called with `length = -1` makes, after the
two calls that resolve the object, the call `Range(startOffset,
n - startOffset)` on the ranger and then one copy to the writer, of exactly
the bytes of the object from `startOffset` to its end, `n - startOffset` of
them; the error it returns is the one of the copy. And for every length other
than `-1`, the call on the ranger is `Range(startOffset, length)`, the length
as given: when it fails its error is returned and nothing is copied, and when
it succeeds the stream it gave is copied to the writer. -/
theorem GetObject_open_ended_range (ops : PathOps P) (B : Backend P σ H)
    (bucket object : String) (startOffset length : Int) (writer : ByteStream → Option Error)
    (etag : String) (w : World P σ H) (data : ByteStream)
    (ho : (storeOf B bucket w).1.2 = none)
    (hg : (objGetOf ops B bucket object w).1.2.2 = none)
    (hreads : (objGetOf ops B bucket object w).1.1.Reads data)
    (h64 : (data.length : Int) < 2 ^ 63)
    (h0 : 0 ≤ startOffset) (hn : startOffset ≤ data.length) :
    GetObject ops B bucket object startOffset (-1) writer etag w =
      ((some (startOffset, (data.length : Int) - startOffset),
        some (data.drop startOffset.toNat), writer (data.drop startOffset.toNat)),
        { store := (objGetOf ops B bucket object w).2
          calls := w.calls ++ [Call.bsGetObjectStore bucket,
            Call.osGet (storeOf B bucket w).1.1 (ops.New object),
            Call.rrRange startOffset ((data.length : Int) - startOffset),
            Call.ioCopy (data.drop startOffset.toNat)] }) ∧
    ((data.drop startOffset.toNat).length : Int) = (data.length : Int) - startOffset ∧
    (length ≠ -1 →
      (∀ err, (rangeOf ops B bucket object startOffset length w).2 = some err →
        GetObject ops B bucket object startOffset length writer etag w =
          ((some (startOffset, length), none, some err),
            { store := (objGetOf ops B bucket object w).2
              calls := w.calls ++ [Call.bsGetObjectStore bucket,
                Call.osGet (storeOf B bucket w).1.1 (ops.New object),
                Call.rrRange startOffset length] })) ∧
      ((rangeOf ops B bucket object startOffset length w).2 = none →
        GetObject ops B bucket object startOffset length writer etag w =
          ((some (startOffset, length),
            some (rangeOf ops B bucket object startOffset length w).1,
            writer (rangeOf ops B bucket object startOffset length w).1),
            { store := (objGetOf ops B bucket object w).2
              calls := w.calls ++ [Call.bsGetObjectStore bucket,
                Call.osGet (storeOf B bucket w).1.1 (ops.New object),
                Call.rrRange startOffset length,
                Call.ioCopy (rangeOf ops B bucket object startOffset length w).1] }))) := by
  obtain ⟨hsize, hrange⟩ := hreads
  have hgo := getObject_ok ops B bucket object w ho
  refine ⟨?_, ?_, ?_⟩
  · have hr := hrange startOffset ((data.length : Int) - startOffset) h0 (by omega) (by omega)
    have htake : (data.drop startOffset.toNat).take ((data.length : Int) - startOffset).toNat
        = data.drop startOffset.toNat := by
      apply List.take_of_length_le
      rw [List.length_drop]
      omega
    rw [htake] at hr
    have hwrap : wrapInt64 ((data.length : Int) - startOffset) = (data.length : Int) - startOffset :=
      wrapInt64_of_range _ (by omega) (by omega)
    unfold GetObject
    simp [hgo, hg, hsize, hwrap, Ranger.callRange, callCopy, hr]
  · rw [List.length_drop]
    omega
  · intro hlen
    unfold rangeOf
    refine ⟨?_, ?_⟩
    · intro err hr
      unfold GetObject
      simp [hgo, hg, hlen, Ranger.callRange, hr]
    · intro hr
      unfold GetObject
      simp [hgo, hg, hlen, Ranger.callRange, callCopy, hr]

/-- C11, on the object `k` of 100 bytes of the in-memory backend, from the
offset 40: the call on the ranger is `Range(40, 60)`, and the one copy to the
writer is of the 60 bytes from the 40th on. -/
theorem GetObject_open_ended_range_witness :
    GetObject specPaths memBackend "b" "k" 40 (-1) (fun _ => none) "" memWorldBytes =
      ((some (40, (hundredBytes.length : Int) - 40), some (hundredBytes.drop (40 : Int).toNat),
        none),
        { store := memWorldBytes.store
          calls := [Call.bsGetObjectStore "b", Call.osGet "b" (specPaths.New "k"),
            Call.rrRange 40 ((hundredBytes.length : Int) - 40),
            Call.ioCopy (hundredBytes.drop (40 : Int).toNat)] }) ∧
    ((hundredBytes.drop (40 : Int).toNat).length : Int) = (hundredBytes.length : Int) - 40 ∧
    (hundredBytes.length : Int) - 40 = 60 ∧
    (hundredBytes.drop (40 : Int).toNat).length = 60 :=
  ⟨(GetObject_open_ended_range specPaths memBackend "b" "k" 40 7 (fun _ => none) ""
      memWorldBytes hundredBytes rfl rfl (memRanger_reads hundredBytes) (by decide) (by decide)
      (by decide)).1,
    (GetObject_open_ended_range specPaths memBackend "b" "k" 40 7 (fun _ => none) ""
      memWorldBytes hundredBytes rfl rfl (memRanger_reads hundredBytes) (by decide) (by decide)
      (by decide)).2.1,
    by decide, by decide⟩

/-- A run that ends with a page has at least one page. -/
theorem Fetches.pages_ne_nil {B : Backend P σ H} {startAfter : String} {st st1 : σ}
    {pages : List (List BucketListItem)}
    (h : Fetches B startAfter st pages none st1) : pages ≠ [] := by
  cases h <;> simp

/-- The loop of `ListBuckets` over a run of page requests: it returns the items
it started with followed by those of the pages of the run, or the error of the
run and no item, having made the requests of the run. -/
theorem ListBuckets_loop_of_fetches (B : Backend P σ H) {startAfter : String} {st st1 : σ}
    {pages : List (List BucketListItem)} {e : Option Error}
    (h : Fetches B startAfter st pages e st1) :
    ∀ (fuel : Nat) (items : List BucketListItem) (w : World P σ H),
      w.store = st → pages.length < fuel →
      ListBuckets.loop B fuel startAfter items w =
        some (Run.returned
          ((match e with
            | none => items ++ pages.flatten
            | some _ => []), e),
          { store := st1
            calls := w.calls ++
              (requestsOf startAfter pages e).map (fun sa => Call.bsList sa "" 0) }) := by
  induction h with
  | done hlist =>
    intro fuel items w hw hfuel
    obtain ⟨n, rfl⟩ : ∃ n, fuel = n + 1 := ⟨fuel - 1, by omega⟩
    subst hw
    simp [ListBuckets.loop, Backend.callList, hlist, requestsOf]
  | fail hlist =>
    intro fuel items w hw hfuel
    obtain ⟨n, rfl⟩ : ∃ n, fuel = n + 1 := ⟨fuel - 1, by omega⟩
    subst hw
    simp [ListBuckets.loop, Backend.callList, hlist, requestsOf]
  | @next startAfter st st1 st2 page last pages e hlist hlast hrest ih =>
    intro fuel items w hw hfuel
    obtain ⟨n, rfl⟩ : ∃ n, fuel = n + 1 := ⟨fuel - 1, by omega⟩
    subst hw
    have hn : pages.length < n := by
      simp only [List.length_cons] at hfuel
      omega
    have hrec := ih n (items ++ page)
      { store := st1, calls := w.calls ++ [Call.bsList startAfter "" 0] } rfl hn
    have hlb : lastBucket page = last.Bucket := by simp [lastBucket, hlast]
    simp only [ListBuckets.loop, Backend.callList, hlist, hlast, hrec]
    cases e with
    | some err => simp [requestsOf, hlb]
    | none =>
      have hne := Fetches.pages_ne_nil hrest
      simp [requestsOf, hlb, List.dropLast_cons_of_ne_nil hne]

/-- C12. ListBuckets concatenation. The bucket store answers the run of page
requests that starts from the empty start-after in the state of `w`: each page
of `pages` came without error and, but for the last, with `more` true and a
last item, after whose bucket name the next one is requested; the run ends
with a page that comes with `more` false, or with a request that fails with
the error `e`. Then `ListBuckets`, given as many iterations as there are
requests, returns: when the run ends with a page, the concatenation of the
pages, in order, each item mapped to its bucket name and creation time, and no
error; when a request fails, its error and no bucket list. The calls it makes
on the stores are the `List` requests of the run, the first with the empty
start-after, each later one with the bucket name of the last item of the page
before it. -/
theorem ListBuckets_concatenation (B : Backend P σ H) (w : World P σ H)
    (pages : List (List BucketListItem)) (e : Option Error) (st1 : σ)
    (fuel : Nat)
    (hrun : Fetches B "" w.store pages e st1)
    (hfuel : pages.length < fuel) :
    ListBuckets B fuel w =
      some (Run.returned
        ((match e with
          | none => pages.flatten.map
              (fun item => ({ Name := item.Bucket, Created := item.Meta.Created } : BucketInfo))
          | some _ => []), e),
        { store := st1
          calls := w.calls ++
            ("" :: (match e with
                    | none => pages.dropLast
                    | some _ => pages).map lastBucket).map (fun sa => Call.bsList sa "" 0) }) := by
  have hloop := ListBuckets_loop_of_fetches B hrun fuel [] w rfl hfuel
  unfold ListBuckets
  rw [hloop]
  cases e with
  | none => simp [requestsOf]
  | some err => simp [requestsOf]

/-- C12, on the bucket store of the in-memory backend that answers two buckets
a page, with the buckets `b1`, `b2` and `b3`: `ListBuckets` makes two requests,
the first after the empty name and the second after `b2`, and returns the three
buckets in order. -/
theorem ListBuckets_concatenation_witness :
    ListBuckets pagedBackend 3 threeBuckets =
      some (Run.returned
        ([{ Name := "b1", Created := 1 }, { Name := "b2", Created := 2 },
          { Name := "b3", Created := 3 }], none),
        { store := threeBuckets.store
          calls := [Call.bsList "" "" 0, Call.bsList "b2" "" 0] }) :=
  ListBuckets_concatenation pagedBackend threeBuckets
    [[{ Bucket := "b1", Meta := { Created := 1 } }, { Bucket := "b2", Meta := { Created := 2 } }],
     [{ Bucket := "b3", Meta := { Created := 3 } }]] none threeBuckets.store 3
    (Fetches.next rfl rfl (Fetches.done rfl))
    (by decide)

/-- C13. Object not-found translation and opaque passthrough. With `storeOf`
the answer of `GetObjectStore`, `objDeleteOf` that of the object store's
`Delete` and `objMetaOf` that of its `Meta`: an error of `GetObjectStore` is
returned as it is by `DeleteObject` and by `GetObjectInfo`, and the object
store is not called; a not-found failure of `Delete` (of `Meta`) gives
`ObjectNotFound` with the bucket and object name of the request; every other
answer of `Delete` is returned as it is, the nil error of a success included,
and every other failure of `Meta` is returned as it is; so, unless the store
itself hands back that `ObjectNotFound` value as an error, `ObjectNotFound` is
returned exactly when `Delete` (`Meta`) fails with a not-found error. On
success `GetObjectInfo` returns the names of the request with the size,
modification time, checksum (as `ETag`), content type and user-defined mapping
of the store's answer. -/
theorem object_not_found_translation (ops : PathOps P) (B : Backend P σ H)
    (bucket object : String) (w : World P σ H) :
    (∀ err, (storeOf B bucket w).1.2 = some err →
      DeleteObject ops B bucket object w =
        (some err, { store := (storeOf B bucket w).2
                     calls := w.calls ++ [Call.bsGetObjectStore bucket] }) ∧
      GetObjectInfo ops B bucket object w =
        (({}, some err), { store := (storeOf B bucket w).2
                           calls := w.calls ++ [Call.bsGetObjectStore bucket] })) ∧
    ((storeOf B bucket w).1.2 = none →
      (ErrKeyNotFound.Has (objDeleteOf ops B bucket object w).1 = true →
        (DeleteObject ops B bucket object w).1 = some (Error.ObjectNotFound bucket object)) ∧
      (ErrKeyNotFound.Has (objDeleteOf ops B bucket object w).1 = false →
        (DeleteObject ops B bucket object w).1 = (objDeleteOf ops B bucket object w).1) ∧
      (∀ err, (objMetaOf ops B bucket object w).1.2 = some err →
        ErrKeyNotFound.Has (some err) = true →
        (GetObjectInfo ops B bucket object w).1 =
          ({}, some (Error.ObjectNotFound bucket object))) ∧
      (∀ err, (objMetaOf ops B bucket object w).1.2 = some err →
        ErrKeyNotFound.Has (some err) = false →
        (GetObjectInfo ops B bucket object w).1 = ({}, some err)) ∧
      ((objMetaOf ops B bucket object w).1.2 = none →
        (GetObjectInfo ops B bucket object w).1 =
          ({ Name := object, Bucket := bucket,
             ModTime := (objMetaOf ops B bucket object w).1.1.Modified,
             Size := (objMetaOf ops B bucket object w).1.1.Size,
             ETag := (objMetaOf ops B bucket object w).1.1.Checksum,
             ContentType := (objMetaOf ops B bucket object w).1.1.ContentType,
             UserDefined := (objMetaOf ops B bucket object w).1.1.UserDefined }, none))) ∧
    ((storeOf B bucket w).1.2 ≠ some (Error.ObjectNotFound bucket object) →
      (objDeleteOf ops B bucket object w).1 ≠ some (Error.ObjectNotFound bucket object) →
      ((DeleteObject ops B bucket object w).1 = some (Error.ObjectNotFound bucket object) ↔
        (storeOf B bucket w).1.2 = none ∧
          ErrKeyNotFound.Has (objDeleteOf ops B bucket object w).1 = true)) ∧
    ((storeOf B bucket w).1.2 ≠ some (Error.ObjectNotFound bucket object) →
      (objMetaOf ops B bucket object w).1.2 ≠ some (Error.ObjectNotFound bucket object) →
      ((GetObjectInfo ops B bucket object w).1.2 = some (Error.ObjectNotFound bucket object) ↔
        (storeOf B bucket w).1.2 = none ∧
          ErrKeyNotFound.Has (objMetaOf ops B bucket object w).1.2 = true)) := by
  have hs : ∀ err, (storeOf B bucket w).1.2 = some err →
      DeleteObject ops B bucket object w =
        (some err, { store := (storeOf B bucket w).2
                     calls := w.calls ++ [Call.bsGetObjectStore bucket] }) ∧
      GetObjectInfo ops B bucket object w =
        (({}, some err), { store := (storeOf B bucket w).2
                           calls := w.calls ++ [Call.bsGetObjectStore bucket] }) := by
    intro err ho
    unfold storeOf at ho ⊢
    simp [DeleteObject, GetObjectInfo, Backend.callGetObjectStore, ho]
  have hd1 : (storeOf B bucket w).1.2 = none →
      ErrKeyNotFound.Has (objDeleteOf ops B bucket object w).1 = true →
      (DeleteObject ops B bucket object w).1 = some (Error.ObjectNotFound bucket object) := by
    intro ho hnf
    unfold objDeleteOf storeOf at *
    simp [DeleteObject, Backend.callGetObjectStore, Backend.callObjDelete, ho, hnf]
  have hd2 : (storeOf B bucket w).1.2 = none →
      ErrKeyNotFound.Has (objDeleteOf ops B bucket object w).1 = false →
      (DeleteObject ops B bucket object w).1 = (objDeleteOf ops B bucket object w).1 := by
    intro ho hnf
    unfold objDeleteOf storeOf at *
    simp [DeleteObject, Backend.callGetObjectStore, Backend.callObjDelete, ho, hnf]
  have hm1 : (storeOf B bucket w).1.2 = none →
      ∀ err, (objMetaOf ops B bucket object w).1.2 = some err →
      ErrKeyNotFound.Has (some err) = true →
      (GetObjectInfo ops B bucket object w).1 =
        ({}, some (Error.ObjectNotFound bucket object)) := by
    intro ho err hm hnf
    unfold objMetaOf storeOf at *
    simp [GetObjectInfo, Backend.callGetObjectStore, Backend.callObjMeta, ho, hm, hnf]
  have hm2 : (storeOf B bucket w).1.2 = none →
      ∀ err, (objMetaOf ops B bucket object w).1.2 = some err →
      ErrKeyNotFound.Has (some err) = false →
      (GetObjectInfo ops B bucket object w).1 = ({}, some err) := by
    intro ho err hm hnf
    unfold objMetaOf storeOf at *
    simp [GetObjectInfo, Backend.callGetObjectStore, Backend.callObjMeta, ho, hm, hnf]
  have hm3 : (storeOf B bucket w).1.2 = none →
      (objMetaOf ops B bucket object w).1.2 = none →
      (GetObjectInfo ops B bucket object w).1 =
        ({ Name := object, Bucket := bucket,
           ModTime := (objMetaOf ops B bucket object w).1.1.Modified,
           Size := (objMetaOf ops B bucket object w).1.1.Size,
           ETag := (objMetaOf ops B bucket object w).1.1.Checksum,
           ContentType := (objMetaOf ops B bucket object w).1.1.ContentType,
           UserDefined := (objMetaOf ops B bucket object w).1.1.UserDefined }, none) := by
    intro ho hm
    unfold objMetaOf storeOf at *
    simp [GetObjectInfo, Backend.callGetObjectStore, Backend.callObjMeta, ho, hm]
  refine ⟨hs, fun ho => ⟨hd1 ho, hd2 ho, hm1 ho, hm2 ho, hm3 ho⟩, ?_, ?_⟩
  · intro hsne hdne
    constructor
    · intro hres
      cases ho : (storeOf B bucket w).1.2 with
      | some err =>
        exfalso
        rw [(hs err ho).1] at hres
        exact hsne (ho.trans hres)
      | none =>
        refine ⟨rfl, ?_⟩
        cases hnf : ErrKeyNotFound.Has (objDeleteOf ops B bucket object w).1 with
        | true => rfl
        | false =>
          exfalso
          rw [hd2 ho hnf] at hres
          exact hdne hres
    · intro h
      exact hd1 h.1 h.2
  · intro hsne hmne
    constructor
    · intro hres
      cases ho : (storeOf B bucket w).1.2 with
      | some err =>
        exfalso
        rw [(hs err ho).2] at hres
        exact hsne (ho.trans hres)
      | none =>
        refine ⟨rfl, ?_⟩
        cases hm : (objMetaOf ops B bucket object w).1.2 with
        | none =>
          exfalso
          rw [hm3 ho hm] at hres
          simp at hres
        | some err =>
          cases hnf : ErrKeyNotFound.Has (some err) with
          | true => rfl
          | false =>
            exfalso
            rw [hm2 ho err hm hnf] at hres
            exact hmne (hm.trans hres)
    · intro h
      cases hm : (objMetaOf ops B bucket object w).1.2 with
      | none =>
        rw [hm] at h
        simp [ErrKeyNotFound.Has] at h
      | some err =>
        rw [hm] at h
        rw [hm1 h.1 err hm h.2]

/-- C13, on the in-memory backend whose bucket `b` holds the object `k`:
deleting and inspecting the missing object `x` gives `ObjectNotFound` with the
names `b` and `x`; inspecting `k` gives its size and checksum. -/
theorem object_not_found_translation_witness :
    (DeleteObject specPaths memBackend "b" "x" memWorldBytes).1
      = some (Error.ObjectNotFound "b" "x") ∧
    (GetObjectInfo specPaths memBackend "b" "x" memWorldBytes).1
      = ({}, some (Error.ObjectNotFound "b" "x")) ∧
    (GetObjectInfo specPaths memBackend "b" "k" memWorldBytes).1
      = ({ Name := "k", Bucket := "b", Size := 100, ETag := "sum" }, none) :=
  ⟨((object_not_found_translation specPaths memBackend "b" "x" memWorldBytes).2.1 rfl).1 rfl,
    ((object_not_found_translation specPaths memBackend "b" "x" memWorldBytes).2.1
      rfl).2.2.1 memNotFound rfl rfl,
    ((object_not_found_translation specPaths memBackend "b" "k" memWorldBytes).2.1
      rfl).2.2.2.2 rfl⟩

/-- C14. CopyObject is a full read followed by a put. When the source is
resolved (`GetObjectStore` and `Get` succeed) and its ranger, of size `n`,
answers the range (0, `n`) with a stream, and the destination store is
resolved, `CopyObject` has requested exactly the range (0, `n`), by the call
`Range(0, n)` on the ranger, and makes one `Put`, the last of its five calls,
on the destination store and path, with
that stream, the `ContentType` and `UserDefined` of `srcInfo`, and no
expiration (the zero time); it returns the object info built from the answer
of that `Put`, and its error. When `GetObjectStore` or `Get` of the source
fails, or the range request fails, or the destination store is not resolved,
that error is returned and no `Put` is made. -/
theorem CopyObject_full_read_then_put (ops : PathOps P) (B : Backend P σ H)
    (srcBucket srcObject destBucket destObject : String) (srcInfo : ObjectInfo)
    (w : World P σ H) :
    (∀ err, (storeOf B srcBucket w).1.2 = some err →
      CopyObject ops B srcBucket srcObject destBucket destObject srcInfo w =
        ((none, {}, some err),
          { store := (storeOf B srcBucket w).2
            calls := w.calls ++ [Call.bsGetObjectStore srcBucket] })) ∧
    ((storeOf B srcBucket w).1.2 = none →
      (∀ err, (objGetOf ops B srcBucket srcObject w).1.2.2 = some err →
        CopyObject ops B srcBucket srcObject destBucket destObject srcInfo w =
          ((none, {}, some err),
            { store := (objGetOf ops B srcBucket srcObject w).2
              calls := w.calls ++ [Call.bsGetObjectStore srcBucket,
                Call.osGet (storeOf B srcBucket w).1.1 (ops.New srcObject)] })) ∧
      ((objGetOf ops B srcBucket srcObject w).1.2.2 = none →
        (∀ err, (srcRangeOf ops B srcBucket srcObject w).2 = some err →
          CopyObject ops B srcBucket srcObject destBucket destObject srcInfo w =
            ((some (0, (objGetOf ops B srcBucket srcObject w).1.1.Size), {}, some err),
              { store := (objGetOf ops B srcBucket srcObject w).2
                calls := w.calls ++ [Call.bsGetObjectStore srcBucket,
                  Call.osGet (storeOf B srcBucket w).1.1 (ops.New srcObject),
                  Call.rrRange 0 (objGetOf ops B srcBucket srcObject w).1.1.Size] })) ∧
        ((srcRangeOf ops B srcBucket srcObject w).2 = none →
          (∀ err, (destStoreOf ops B srcBucket srcObject destBucket w).1.2 = some err →
            CopyObject ops B srcBucket srcObject destBucket destObject srcInfo w =
              ((some (0, (objGetOf ops B srcBucket srcObject w).1.1.Size), {}, some err),
                { store := (destStoreOf ops B srcBucket srcObject destBucket w).2
                  calls := w.calls ++ [Call.bsGetObjectStore srcBucket,
                    Call.osGet (storeOf B srcBucket w).1.1 (ops.New srcObject),
                    Call.rrRange 0 (objGetOf ops B srcBucket srcObject w).1.1.Size,
                    Call.bsGetObjectStore destBucket] })) ∧
          ((destStoreOf ops B srcBucket srcObject destBucket w).1.2 = none →
            CopyObject ops B srcBucket srcObject destBucket destObject srcInfo w =
              ((some (0, (objGetOf ops B srcBucket srcObject w).1.1.Size),
                { Name := destObject, Bucket := destBucket,
                  ModTime := (destPutOf ops B srcBucket srcObject destBucket destObject srcInfo
                    w).1.1.Modified,
                  Size := (destPutOf ops B srcBucket srcObject destBucket destObject srcInfo
                    w).1.1.Size,
                  ETag := (destPutOf ops B srcBucket srcObject destBucket destObject srcInfo
                    w).1.1.Checksum,
                  ContentType := (destPutOf ops B srcBucket srcObject destBucket destObject
                    srcInfo w).1.1.ContentType,
                  UserDefined := (destPutOf ops B srcBucket srcObject destBucket destObject
                    srcInfo w).1.1.UserDefined },
                (destPutOf ops B srcBucket srcObject destBucket destObject srcInfo w).1.2),
                { store := (destPutOf ops B srcBucket srcObject destBucket destObject srcInfo
                    w).2
                  calls := w.calls ++ [Call.bsGetObjectStore srcBucket,
                    Call.osGet (storeOf B srcBucket w).1.1 (ops.New srcObject),
                    Call.rrRange 0 (objGetOf ops B srcBucket srcObject w).1.1.Size,
                    Call.bsGetObjectStore destBucket,
                    Call.osPut (destStoreOf ops B srcBucket srcObject destBucket w).1.1
                      (ops.New destObject) (srcRangeOf ops B srcBucket srcObject w).1
                      { ContentType := srcInfo.ContentType,
                        UserDefined := srcInfo.UserDefined } 0] }))))) := by
  refine ⟨?_, ?_⟩
  · intro err ho
    unfold CopyObject
    simp only [getObject_store_err ops B srcBucket srcObject w err ho]
  · intro ho
    have hgo := getObject_ok ops B srcBucket srcObject w ho
    refine ⟨?_, ?_⟩
    · intro err hg
      unfold CopyObject
      simp only [hgo, hg]
    · intro hg
      refine ⟨?_, ?_⟩
      · intro err hr
        unfold srcRangeOf at hr
        unfold CopyObject
        simp [hgo, hg, Ranger.callRange, hr]
      · intro hr
        refine ⟨?_, ?_⟩
        · intro err hds
          unfold destStoreOf at hds ⊢
          unfold srcRangeOf at hr
          unfold CopyObject
          simp [hgo, hg, Ranger.callRange, hr, putObject, Backend.callGetObjectStore, hds]
        · intro hds
          unfold destPutOf
          unfold destStoreOf at hds ⊢
          unfold srcRangeOf at hr ⊢
          unfold CopyObject
          simp [hgo, hg, Ranger.callRange, hr, putObject, Backend.callGetObjectStore,
            Backend.callObjPut, hds]

/-- C14, on the in-memory backend whose bucket `b` holds the object `k` of 100
bytes: copying `k` to `k2` requests the range (0, 100) and returns the info of
the stored copy, with the content type and user-defined pair of `srcInfo`;
copying the missing object `x` fails with the store's not-found error after
the two calls that resolve the source, with no `Put`. -/
theorem CopyObject_full_read_then_put_witness :
    (CopyObject specPaths memBackend "b" "k" "b" "k2"
      { ContentType := "text/plain", UserDefined := [("color", "red")] } memWorldBytes).1 =
      (some (0, 100),
        { Name := "k2", Bucket := "b", Size := 100, ContentType := "text/plain",
          UserDefined := [("color", "red")] }, none) ∧
    CopyObject specPaths memBackend "b" "x" "b" "k2" {} memWorldBytes =
      ((none, {}, some memNotFound),
        { store := memWorldBytes.store
          calls := [Call.bsGetObjectStore "b", Call.osGet "b" (specPaths.New "x")] }) :=
  ⟨congrArg Prod.fst
      (((((CopyObject_full_read_then_put specPaths memBackend "b" "k" "b" "k2"
        { ContentType := "text/plain", UserDefined := [("color", "red")] }
        memWorldBytes).2 rfl).2 rfl).2 rfl).2 rfl),
    ((CopyObject_full_read_then_put specPaths memBackend "b" "x" "b" "k2" {}
      memWorldBytes).2 rfl).1 memNotFound rfl⟩

/-! ## The order of the sentinel -/

/-- No character is less than the character of code 0. -/
theorem char_not_lt_zero (c : Char) : ¬ c < Char.ofNat 0 := by
  intro h
  have hlt : c.toNat < (Char.ofNat 0).toNat := h
  have h0 : (Char.ofNat 0).toNat = 0 := by decide
  omega

/-- Two non-empty lists of characters in lexicographic order differ in their
heads, or agree there and are ordered by their tails. -/
theorem chars_lt_cons (a b : Char) (l1 l2 : List Char) (h : a :: l1 < b :: l2) :
    a < b ∨ (a = b ∧ l1 < l2) := by
  cases h with
  | rel h => exact Or.inl h
  | cons h => exact Or.inr ⟨rfl, h⟩

/-- No list of characters is less than the empty list. -/
theorem chars_not_lt_nil (l : List Char) : ¬ l < [] := by
  intro h
  cases h

/-- A list of characters is less than each of its proper extensions. -/
theorem chars_lt_append (l : List Char) (a : Char) (t : List Char) : l < l ++ a :: t := by
  induction l with
  | nil => exact List.Lex.nil
  | cons c cs ih => exact List.Lex.cons ih

/-- No list of characters lies strictly between a list and that list followed
by the character of code 0. -/
theorem chars_none_between (p t : List Char) : ¬ (p < t ∧ t < p ++ [Char.ofNat 0]) := by
  induction p generalizing t with
  | nil =>
    rintro ⟨h1, h2⟩
    cases t with
    | nil => exact chars_not_lt_nil _ h1
    | cons c rest =>
      rw [List.nil_append] at h2
      rcases chars_lt_cons _ _ _ _ h2 with h | ⟨_, h⟩
      · exact char_not_lt_zero c h
      · exact chars_not_lt_nil _ h
  | cons a p ih =>
    rintro ⟨h1, h2⟩
    cases t with
    | nil => exact chars_not_lt_nil _ h1
    | cons b rest =>
      rw [List.cons_append] at h2
      rcases chars_lt_cons _ _ _ _ h1 with h | ⟨hab, h⟩
      · rcases chars_lt_cons _ _ _ _ h2 with hba | ⟨hba, _⟩
        · exact lt_asymm h hba
        · exact absurd hba.symm (ne_of_lt h)
      · rcases chars_lt_cons _ _ _ _ h2 with hba | ⟨_, hrest⟩
        · exact absurd hab.symm (ne_of_lt hba)
        · exact ih rest ⟨h, hrest⟩

/-- The characters of a string followed by the sentinel. -/
theorem toList_append_sentinel (s : String) :
    (s ++ "\x00").toList = s.toList ++ [Char.ofNat 0] := by
  show (s ++ "\x00").data = s.data ++ [Char.ofNat 0]
  rw [String.data_append]

/-- A string is less than that string followed by the sentinel. -/
theorem lt_append_sentinel (s : String) : s < s ++ "\x00" := by
  rw [String.lt_iff_toList_lt, toList_append_sentinel]
  exact chars_lt_append _ _ _

/-- No string lies strictly between a string and that string followed by the
sentinel. -/
theorem none_between_sentinel (s t : String) : ¬ (s < t ∧ t < s ++ "\x00") := by
  rw [String.lt_iff_toList_lt, String.lt_iff_toList_lt, toList_append_sentinel]
  exact chars_none_between _ _

/-- C15, as stated, fails. On the bucket holding `a` and `b` of the in-memory
backend, the token `ListObjectsV2` returns after the path `a` is `a` followed
by the sentinel; the sentinel is the one character of code 0, one byte long;
and its code is not greater than that of the path character `a`, which is 97:
the sentinel does not sort after the characters of the path. -/
theorem sentinel_not_after_path_characters :
    (ListObjectsV2 specPaths memBackend "b" "" "" "" 1 false ""
      (memWorld "b" ["a", "b"])).1.1.NextContinuationToken = "a" ++ "\x00" ∧
    ("\x00" : String).data = [Char.ofNat 0] ∧
    ("\x00" : String).utf8ByteSize = 1 ∧
    (Char.ofNat 97 ∈ ("a" : String).data ∧ ¬ (Char.ofNat 97).toNat < (Char.ofNat 0).toNat) := by
  decide

/-- C15, amended. For every `ListObjectsV2` call that returns no error, with
`more` true and a last item on the backing page, the token is the string form
of the path of that item followed by the sentinel; the sentinel is the single
character of code 0, one byte long, whose code is at most that of every
character (it sorts before every other character, not after); and the token
compares strictly greater than the string form of the last returned path, with
no string strictly between the two. -/
theorem ListObjectsV2_sentinel_order (ops : PathOps P) (B : Backend P σ H)
    (bucket pfx continuationToken delimiter : String) (maxKeys : Int) (fetchOwner : Bool)
    (startAfter : String) (w : World P σ H) (last : ListItem P)
    (hok : (ListObjectsV2 ops B bucket pfx continuationToken delimiter maxKeys fetchOwner
      startAfter w).1.2 = none)
    (hlast : (pageV2 ops B bucket pfx continuationToken delimiter maxKeys startAfter
      w).1.1.getLast? = some last)
    (hmore : (pageV2 ops B bucket pfx continuationToken delimiter maxKeys startAfter
      w).1.2.1 = true) :
    (ListObjectsV2 ops B bucket pfx continuationToken delimiter maxKeys fetchOwner
      startAfter w).1.1.NextContinuationToken = ops.String last.Path ++ "\x00" ∧
    ("\x00" : String).data = [Char.ofNat 0] ∧
    ("\x00" : String).utf8ByteSize = 1 ∧
    (∀ c : Char, (Char.ofNat 0).toNat ≤ c.toNat) ∧
    ops.String last.Path <
      (ListObjectsV2 ops B bucket pfx continuationToken delimiter maxKeys fetchOwner
        startAfter w).1.1.NextContinuationToken ∧
    (∀ t : String, ¬ (ops.String last.Path < t ∧
      t < (ListObjectsV2 ops B bucket pfx continuationToken delimiter maxKeys fetchOwner
        startAfter w).1.1.NextContinuationToken)) := by
  obtain ⟨hd, ho, hl⟩ := ListObjectsV2_success ops B bucket pfx continuationToken delimiter
    maxKeys fetchOwner startAfter w hok
  have htoken : (ListObjectsV2 ops B bucket pfx continuationToken delimiter maxKeys fetchOwner
      startAfter w).1.1.NextContinuationToken = ops.String last.Path ++ "\x00" := by
    rw [ListObjectsV2_ok ops B bucket pfx continuationToken delimiter maxKeys fetchOwner
      startAfter w hd ho hl]
    simp [hmore, hlast]
  rw [htoken]
  refine ⟨rfl, by decide, by decide, ?_, lt_append_sentinel _, fun t => none_between_sentinel _ t⟩
  intro c
  have h0 : (Char.ofNat 0).toNat = 0 := by decide
  omega

/-- C15, amended, on the bucket holding `a` and `b` of the in-memory backend:
the token after `a` is `a` followed by the sentinel, and it is greater than
`a`. -/
theorem ListObjectsV2_sentinel_order_witness :
    (ListObjectsV2 specPaths memBackend "b" "" "" "" 1 false ""
      (memWorld "b" ["a", "b"])).1.1.NextContinuationToken
      = specPaths.String { segs := ["a"] } ++ "\x00" ∧
    specPaths.String { segs := ["a"] } <
      (ListObjectsV2 specPaths memBackend "b" "" "" "" 1 false ""
        (memWorld "b" ["a", "b"])).1.1.NextContinuationToken :=
  ⟨(ListObjectsV2_sentinel_order specPaths memBackend "b" "" "" "" 1 false ""
      (memWorld "b" ["a", "b"]) { Path := { segs := ["a"] } } (by decide) (by decide)
      (by decide)).1,
    (ListObjectsV2_sentinel_order specPaths memBackend "b" "" "" "" 1 false ""
      (memWorld "b" ["a", "b"]) { Path := { segs := ["a"] } } (by decide) (by decide)
      (by decide)).2.2.2.2.1⟩

/-! ## Listing reads only -/

/-- The result of `ListObjects` depends on the world through the state of the
stores only, not through the call log. -/
theorem ListObjects_result_congr (ops : PathOps P) (B : Backend P σ H)
    (bucket pfx marker delimiter : String) (maxKeys : Int) (w1 w2 : World P σ H)
    (h : w1.store = w2.store) :
    (ListObjects ops B bucket pfx marker delimiter maxKeys w1).1 =
      (ListObjects ops B bucket pfx marker delimiter maxKeys w2).1 := by
  have hs : storeOf B bucket w1 = storeOf B bucket w2 := by unfold storeOf; rw [h]
  have hp : pageV1 ops B bucket pfx marker delimiter maxKeys w1 =
      pageV1 ops B bucket pfx marker delimiter maxKeys w2 := by unfold pageV1; rw [hs]
  by_cases hd : delimiter = "" ∨ delimiter = "/"
  · cases ho : (storeOf B bucket w2).1.2 with
    | some err =>
      rw [ListObjects_store_err ops B bucket pfx marker delimiter maxKeys w1 hd err (hs ▸ ho),
        ListObjects_store_err ops B bucket pfx marker delimiter maxKeys w2 hd err ho]
    | none =>
      cases hl : (pageV1 ops B bucket pfx marker delimiter maxKeys w2).1.2.2 with
      | some err =>
        rw [ListObjects_list_err ops B bucket pfx marker delimiter maxKeys w1 hd err (hs ▸ ho)
            (hp ▸ hl),
          ListObjects_list_err ops B bucket pfx marker delimiter maxKeys w2 hd err ho hl]
      | none =>
        rw [ListObjects_ok ops B bucket pfx marker delimiter maxKeys w1 hd (hs ▸ ho) (hp ▸ hl),
          ListObjects_ok ops B bucket pfx marker delimiter maxKeys w2 hd ho hl, hp]
  · push_neg at hd
    simp [ListObjects, hd.1, hd.2]

/-- The result of `ListObjectsV2` depends on the world through the state of
the stores only, not through the call log. -/
theorem ListObjectsV2_result_congr (ops : PathOps P) (B : Backend P σ H)
    (bucket pfx continuationToken delimiter : String) (maxKeys : Int) (fetchOwner : Bool)
    (startAfter : String) (w1 w2 : World P σ H) (h : w1.store = w2.store) :
    (ListObjectsV2 ops B bucket pfx continuationToken delimiter maxKeys fetchOwner startAfter
      w1).1 =
      (ListObjectsV2 ops B bucket pfx continuationToken delimiter maxKeys fetchOwner startAfter
        w2).1 := by
  have hs : storeOf B bucket w1 = storeOf B bucket w2 := by unfold storeOf; rw [h]
  have hp : pageV2 ops B bucket pfx continuationToken delimiter maxKeys startAfter w1 =
      pageV2 ops B bucket pfx continuationToken delimiter maxKeys startAfter w2 := by
    unfold pageV2
    rw [hs]
  by_cases hd : delimiter = "" ∨ delimiter = "/"
  · cases ho : (storeOf B bucket w2).1.2 with
    | some err =>
      rw [ListObjectsV2_store_err ops B bucket pfx continuationToken delimiter maxKeys
          fetchOwner startAfter w1 hd err (hs ▸ ho),
        ListObjectsV2_store_err ops B bucket pfx continuationToken delimiter maxKeys
          fetchOwner startAfter w2 hd err ho]
    | none =>
      cases hl : (pageV2 ops B bucket pfx continuationToken delimiter maxKeys startAfter
          w2).1.2.2 with
      | some err =>
        rw [ListObjectsV2_list_err ops B bucket pfx continuationToken delimiter maxKeys
            fetchOwner startAfter w1 hd err (hs ▸ ho) (hp ▸ hl),
          ListObjectsV2_list_err ops B bucket pfx continuationToken delimiter maxKeys
            fetchOwner startAfter w2 hd err ho hl]
      | none =>
        rw [ListObjectsV2_ok ops B bucket pfx continuationToken delimiter maxKeys fetchOwner
            startAfter w1 hd (hs ▸ ho) (hp ▸ hl),
          ListObjectsV2_ok ops B bucket pfx continuationToken delimiter maxKeys fetchOwner
            startAfter w2 hd ho hl, hp]
  · push_neg at hd
    simp [ListObjectsV2, hd.1, hd.2]

/-- The calls `ListObjects` adds to the call log write to no store, and when
`GetObjectStore` and `List` leave the state of the stores as it is, so does
`ListObjects`. -/
theorem ListObjects_reads_only (ops : PathOps P) (B : Backend P σ H)
    (bucket pfx marker delimiter : String) (maxKeys : Int) (w : World P σ H) :
    (∃ added : List (Call P H),
      (ListObjects ops B bucket pfx marker delimiter maxKeys w).2.calls = w.calls ++ added ∧
      ∀ c ∈ added, c.isMutation = false) ∧
    ((∀ st, (B.bsGetObjectStore bucket st).2 = st) →
      (∀ o p sa e r l m st, (B.osList o p sa e r l m st).2 = st) →
      (ListObjects ops B bucket pfx marker delimiter maxKeys w).2.store = w.store) := by
  by_cases hd : delimiter = "" ∨ delimiter = "/"
  · cases ho : (storeOf B bucket w).1.2 with
    | some err =>
      rw [ListObjects_store_err ops B bucket pfx marker delimiter maxKeys w hd err ho]
      refine ⟨⟨_, rfl, by simp [Call.isMutation]⟩, fun h1 _ => ?_⟩
      simp [storeOf, h1]
    | none =>
      cases hl : (pageV1 ops B bucket pfx marker delimiter maxKeys w).1.2.2 with
      | some err =>
        rw [ListObjects_list_err ops B bucket pfx marker delimiter maxKeys w hd err ho hl]
        refine ⟨⟨_, rfl, by simp [Call.isMutation]⟩, fun h1 h2 => ?_⟩
        simp [pageV1, storeOf, h1, h2]
      | none =>
        rw [ListObjects_ok ops B bucket pfx marker delimiter maxKeys w hd ho hl]
        refine ⟨⟨_, rfl, by simp [Call.isMutation]⟩, fun h1 h2 => ?_⟩
        simp [pageV1, storeOf, h1, h2]
  · push_neg at hd
    refine ⟨⟨[], ?_, by simp⟩, fun _ _ => ?_⟩ <;> simp [ListObjects, hd.1, hd.2]

/-- The calls `ListObjectsV2` adds to the call log write to no store, and when
`GetObjectStore` and `List` leave the state of the stores as it is, so does
`ListObjectsV2`. -/
theorem ListObjectsV2_reads_only (ops : PathOps P) (B : Backend P σ H)
    (bucket pfx continuationToken delimiter : String) (maxKeys : Int) (fetchOwner : Bool)
    (startAfter : String) (w : World P σ H) :
    (∃ added : List (Call P H),
      (ListObjectsV2 ops B bucket pfx continuationToken delimiter maxKeys fetchOwner startAfter
        w).2.calls = w.calls ++ added ∧
      ∀ c ∈ added, c.isMutation = false) ∧
    ((∀ st, (B.bsGetObjectStore bucket st).2 = st) →
      (∀ o p sa e r l m st, (B.osList o p sa e r l m st).2 = st) →
      (ListObjectsV2 ops B bucket pfx continuationToken delimiter maxKeys fetchOwner startAfter
        w).2.store = w.store) := by
  by_cases hd : delimiter = "" ∨ delimiter = "/"
  · cases ho : (storeOf B bucket w).1.2 with
    | some err =>
      rw [ListObjectsV2_store_err ops B bucket pfx continuationToken delimiter maxKeys
        fetchOwner startAfter w hd err ho]
      refine ⟨⟨_, rfl, by simp [Call.isMutation]⟩, fun h1 _ => ?_⟩
      simp [storeOf, h1]
    | none =>
      cases hl : (pageV2 ops B bucket pfx continuationToken delimiter maxKeys startAfter
          w).1.2.2 with
      | some err =>
        rw [ListObjectsV2_list_err ops B bucket pfx continuationToken delimiter maxKeys
          fetchOwner startAfter w hd err ho hl]
        refine ⟨⟨_, rfl, by simp [Call.isMutation]⟩, fun h1 h2 => ?_⟩
        simp [pageV2, storeOf, h1, h2]
      | none =>
        rw [ListObjectsV2_ok ops B bucket pfx continuationToken delimiter maxKeys fetchOwner
          startAfter w hd ho hl]
        refine ⟨⟨_, rfl, by simp [Call.isMutation]⟩, fun h1 h2 => ?_⟩
        simp [pageV2, storeOf, h1, h2]
  · push_neg at hd
    refine ⟨⟨[], ?_, by simp⟩, fun _ _ => ?_⟩ <;> simp [ListObjectsV2, hd.1, hd.2]

/-- C16. Listing is idempotent and read-only. For every world and every
argument tuple, the calls `ListObjects` and `ListObjectsV2` add to the call
log are no `Put` and no `Delete`, on the bucket store or on an object store.
And on stores whose `GetObjectStore` and `List` leave the state as it is (the
state changes through writes only), either listing call leaves the state of
the stores unchanged, and the same call made again right after it returns the
same result: the same objects, prefixes, `IsTruncated`, next cursor, and
error. -/
theorem listing_idempotent_read_only (ops : PathOps P) (B : Backend P σ H)
    (bucket pfx cursor delimiter : String) (maxKeys : Int) (fetchOwner : Bool)
    (startAfter : String) (w : World P σ H) :
    (∃ added : List (Call P H),
      (ListObjects ops B bucket pfx cursor delimiter maxKeys w).2.calls = w.calls ++ added ∧
      ∀ c ∈ added, c.isMutation = false) ∧
    (∃ added : List (Call P H),
      (ListObjectsV2 ops B bucket pfx cursor delimiter maxKeys fetchOwner startAfter
        w).2.calls = w.calls ++ added ∧
      ∀ c ∈ added, c.isMutation = false) ∧
    ((∀ st, (B.bsGetObjectStore bucket st).2 = st) →
      (∀ o p sa e r l m st, (B.osList o p sa e r l m st).2 = st) →
      (ListObjects ops B bucket pfx cursor delimiter maxKeys w).2.store = w.store ∧
      (ListObjects ops B bucket pfx cursor delimiter maxKeys
        (ListObjects ops B bucket pfx cursor delimiter maxKeys w).2).1 =
        (ListObjects ops B bucket pfx cursor delimiter maxKeys w).1 ∧
      (ListObjectsV2 ops B bucket pfx cursor delimiter maxKeys fetchOwner startAfter
        w).2.store = w.store ∧
      (ListObjectsV2 ops B bucket pfx cursor delimiter maxKeys fetchOwner startAfter
        (ListObjectsV2 ops B bucket pfx cursor delimiter maxKeys fetchOwner startAfter w).2).1 =
        (ListObjectsV2 ops B bucket pfx cursor delimiter maxKeys fetchOwner startAfter
          w).1) := by
  refine ⟨(ListObjects_reads_only ops B bucket pfx cursor delimiter maxKeys w).1,
    (ListObjectsV2_reads_only ops B bucket pfx cursor delimiter maxKeys fetchOwner startAfter
      w).1, ?_⟩
  intro hstore hlist
  have h1 := (ListObjects_reads_only ops B bucket pfx cursor delimiter maxKeys w).2 hstore hlist
  have h2 := (ListObjectsV2_reads_only ops B bucket pfx cursor delimiter maxKeys fetchOwner
    startAfter w).2 hstore hlist
  exact ⟨h1, ListObjects_result_congr ops B bucket pfx cursor delimiter maxKeys _ w h1, h2,
    ListObjectsV2_result_congr ops B bucket pfx cursor delimiter maxKeys fetchOwner startAfter
      _ w h2⟩

/-- C16, on the bucket holding `a`, `b` and `c` of the in-memory backend, whose
`GetObjectStore` and `List` leave the state as it is: each listing call, made
again right after itself, returns the same result. -/
theorem listing_idempotent_read_only_witness :
    (ListObjects specPaths memBackend "b" "" "a" "" 1 (memWorld "b" ["a", "b", "c"])).2.store
      = (memWorld "b" ["a", "b", "c"]).store ∧
    (ListObjects specPaths memBackend "b" "" "a" "" 1
      (ListObjects specPaths memBackend "b" "" "a" "" 1 (memWorld "b" ["a", "b", "c"])).2).1 =
      (ListObjects specPaths memBackend "b" "" "a" "" 1 (memWorld "b" ["a", "b", "c"])).1 ∧
    (ListObjectsV2 specPaths memBackend "b" "" "a" "" 1 false ""
      (memWorld "b" ["a", "b", "c"])).2.store = (memWorld "b" ["a", "b", "c"]).store ∧
    (ListObjectsV2 specPaths memBackend "b" "" "a" "" 1 false ""
      (ListObjectsV2 specPaths memBackend "b" "" "a" "" 1 false ""
        (memWorld "b" ["a", "b", "c"])).2).1 =
      (ListObjectsV2 specPaths memBackend "b" "" "a" "" 1 false ""
        (memWorld "b" ["a", "b", "c"])).1 :=
  (listing_idempotent_read_only specPaths memBackend "b" "" "a" "" 1 false ""
    (memWorld "b" ["a", "b", "c"])).2.2 (fun _ => rfl) (fun _ _ _ _ _ _ _ _ => rfl)

/-- C17. Listing partitions the backing page. For every `ListObjects` call and
every `ListObjectsV2` call that returns no error, over the items of the page
the object store returned: `Objects` holds one entry for each item that is not
flagged as a prefix, in the order of the items, and `Prefixes` one entry for
each item that is, in the order of the items, so every item goes to exactly
one of the two and the lengths of `Objects` and `Prefixes` add up to the number
of items; and the entries of `Objects` carry the size, modification time,
checksum (as `ETag`), content type and user-defined mapping of their items. -/
theorem listing_partitions_page (ops : PathOps P) (B : Backend P σ H)
    (bucket pfx cursor delimiter : String) (maxKeys : Int) (fetchOwner : Bool)
    (startAfter : String) (w : World P σ H) :
    ((ListObjects ops B bucket pfx cursor delimiter maxKeys w).1.2 = none →
      (ListObjects ops B bucket pfx cursor delimiter maxKeys w).1.1.Objects =
        ((pageV1 ops B bucket pfx cursor delimiter maxKeys w).1.1.filter
          (fun i => !i.IsPrefix)).map (objectOf ops bucket pfx (decide (delimiter = ""))) ∧
      (ListObjects ops B bucket pfx cursor delimiter maxKeys w).1.1.Prefixes =
        ((pageV1 ops B bucket pfx cursor delimiter maxKeys w).1.1.filter
          (fun i => i.IsPrefix)).map (prefixOf ops pfx (decide (delimiter = ""))) ∧
      (ListObjects ops B bucket pfx cursor delimiter maxKeys w).1.1.Objects.length +
        (ListObjects ops B bucket pfx cursor delimiter maxKeys w).1.1.Prefixes.length =
        (pageV1 ops B bucket pfx cursor delimiter maxKeys w).1.1.length ∧
      (ListObjects ops B bucket pfx cursor delimiter maxKeys w).1.1.Objects.map
          (fun x => (x.Size, x.ModTime, x.ETag, x.ContentType, x.UserDefined)) =
        ((pageV1 ops B bucket pfx cursor delimiter maxKeys w).1.1.filter
          (fun i => !i.IsPrefix)).map
          (fun i => (i.Meta.Size, i.Meta.Modified, i.Meta.Checksum, i.Meta.ContentType,
            i.Meta.UserDefined))) ∧
    ((ListObjectsV2 ops B bucket pfx cursor delimiter maxKeys fetchOwner startAfter w).1.2
        = none →
      (ListObjectsV2 ops B bucket pfx cursor delimiter maxKeys fetchOwner startAfter
        w).1.1.Objects =
        ((pageV2 ops B bucket pfx cursor delimiter maxKeys startAfter w).1.1.filter
          (fun i => !i.IsPrefix)).map (objectOf ops bucket pfx (decide (delimiter = ""))) ∧
      (ListObjectsV2 ops B bucket pfx cursor delimiter maxKeys fetchOwner startAfter
        w).1.1.Prefixes =
        ((pageV2 ops B bucket pfx cursor delimiter maxKeys startAfter w).1.1.filter
          (fun i => i.IsPrefix)).map (prefixOf ops pfx (decide (delimiter = ""))) ∧
      (ListObjectsV2 ops B bucket pfx cursor delimiter maxKeys fetchOwner startAfter
        w).1.1.Objects.length +
        (ListObjectsV2 ops B bucket pfx cursor delimiter maxKeys fetchOwner startAfter
          w).1.1.Prefixes.length =
        (pageV2 ops B bucket pfx cursor delimiter maxKeys startAfter w).1.1.length ∧
      (ListObjectsV2 ops B bucket pfx cursor delimiter maxKeys fetchOwner startAfter
        w).1.1.Objects.map
          (fun x => (x.Size, x.ModTime, x.ETag, x.ContentType, x.UserDefined)) =
        ((pageV2 ops B bucket pfx cursor delimiter maxKeys startAfter w).1.1.filter
          (fun i => !i.IsPrefix)).map
          (fun i => (i.Meta.Size, i.Meta.Modified, i.Meta.Checksum, i.Meta.ContentType,
            i.Meta.UserDefined))) := by
  constructor
  · intro hok
    obtain ⟨hd, ho, hl⟩ := ListObjects_success ops B bucket pfx cursor delimiter maxKeys w hok
    rw [ListObjects_ok ops B bucket pfx cursor delimiter maxKeys w hd ho hl]
    refine ⟨rfl, rfl, ?_, ?_⟩
    · simp only [List.length_map]
      rw [Nat.add_comm]
      exact (List.length_eq_length_filter_add _).symm
    · simp [objectOf, Function.comp_def]
  · intro hok
    obtain ⟨hd, ho, hl⟩ := ListObjectsV2_success ops B bucket pfx cursor delimiter maxKeys
      fetchOwner startAfter w hok
    rw [ListObjectsV2_ok ops B bucket pfx cursor delimiter maxKeys fetchOwner startAfter w
      hd ho hl]
    refine ⟨rfl, rfl, ?_, ?_⟩
    · simp only [List.length_map]
      rw [Nat.add_comm]
      exact (List.length_eq_length_filter_add _).symm
    · simp [objectOf, Function.comp_def]

/-- C17, on the bucket of the in-memory backend that lists the prefix `d` and
the object `f`: the page of two items gives one object and one prefix. -/
theorem listing_partitions_page_witness :
    (ListObjects specPaths memBackend "b" "" "" "/" 10 memWorldDir).1.1.Objects.length +
      (ListObjects specPaths memBackend "b" "" "" "/" 10 memWorldDir).1.1.Prefixes.length
      = (pageV1 specPaths memBackend "b" "" "" "/" 10 memWorldDir).1.1.length ∧
    (pageV1 specPaths memBackend "b" "" "" "/" 10 memWorldDir).1.1.length = 2 ∧
    (ListObjects specPaths memBackend "b" "" "" "/" 10 memWorldDir).1.1.Prefixes = ["d/"] :=
  ⟨((listing_partitions_page specPaths memBackend "b" "" "" "/" 10 false "" memWorldDir).1
      (by decide)).2.2.1,
    by decide,
    (((listing_partitions_page specPaths memBackend "b" "" "" "/" 10 false "" memWorldDir).1
      (by decide)).2.1).trans (by decide)⟩

/-! ## The index into the page of buckets -/

/-- On a bucket store that answers no empty page with `more` true, the loop of
`ListBuckets` never indexes out of range. -/
theorem ListBuckets_loop_in_bounds (B : Backend P σ H)
    (hpre : ∀ sa st, (B.bsList sa "" 0 st).1.2.2 = none → (B.bsList sa "" 0 st).1.2.1 = true →
      (B.bsList sa "" 0 st).1.1 ≠ []) :
    ∀ (fuel : Nat) (startAfter : String) (items : List BucketListItem) (w w1 : World P σ H),
      ListBuckets.loop B fuel startAfter items w ≠ some (Run.indexOutOfRange, w1) := by
  intro fuel
  induction fuel with
  | zero =>
    intro startAfter items w w1
    simp [ListBuckets.loop]
  | succ n ih =>
    intro startAfter items w w1
    unfold ListBuckets.loop
    simp only [Backend.callList]
    cases herr : (B.bsList startAfter "" 0 w.store).1.2.2 with
    | some err => simp
    | none =>
      cases hmore : (B.bsList startAfter "" 0 w.store).1.2.1 with
      | false => simp
      | true =>
        cases hlast : (B.bsList startAfter "" 0 w.store).1.1.getLast? with
        | none =>
          exfalso
          exact hpre startAfter w.store herr hmore (List.getLast?_eq_none_iff.mp hlast)
        | some last =>
          simp only [Bool.not_true, Bool.false_eq_true, if_false]
          exact ih _ _ _ _

/-- C18. ListBuckets indexing safety. On a bucket store that answers no empty
page together with `more` true, `ListBuckets` never indexes its page out of
range, however many iterations it makes. And the index is taken on iterations
with `more` true only: an iteration whose page comes with `more` false returns
the items gathered, whatever the page, the empty page included; an iteration
whose request fails returns the error; and an iteration whose page is empty
and comes with `more` true, which the precondition excludes, is the one that
indexes out of range. -/
theorem ListBuckets_index_in_bounds (B : Backend P σ H) :
    ((∀ sa st, (B.bsList sa "" 0 st).1.2.2 = none → (B.bsList sa "" 0 st).1.2.1 = true →
        (B.bsList sa "" 0 st).1.1 ≠ []) →
      ∀ (fuel : Nat) (w w1 : World P σ H),
        ListBuckets B fuel w ≠ some (Run.indexOutOfRange, w1)) ∧
    (∀ (fuel : Nat) (startAfter : String) (items : List BucketListItem) (w : World P σ H),
      (B.bsList startAfter "" 0 w.store).1.2.2 = none →
      (B.bsList startAfter "" 0 w.store).1.2.1 = false →
      ListBuckets.loop B (fuel + 1) startAfter items w =
        some (Run.returned (items ++ (B.bsList startAfter "" 0 w.store).1.1, none),
          { store := (B.bsList startAfter "" 0 w.store).2
            calls := w.calls ++ [Call.bsList startAfter "" 0] })) ∧
    (∀ (fuel : Nat) (startAfter : String) (items : List BucketListItem) (w : World P σ H)
      (err : Error),
      (B.bsList startAfter "" 0 w.store).1.2.2 = some err →
      ListBuckets.loop B (fuel + 1) startAfter items w =
        some (Run.returned ([], some err),
          { store := (B.bsList startAfter "" 0 w.store).2
            calls := w.calls ++ [Call.bsList startAfter "" 0] })) ∧
    (∀ (fuel : Nat) (startAfter : String) (items : List BucketListItem) (w : World P σ H),
      (B.bsList startAfter "" 0 w.store).1.2.2 = none →
      (B.bsList startAfter "" 0 w.store).1.2.1 = true →
      (B.bsList startAfter "" 0 w.store).1.1 = [] →
      ListBuckets.loop B (fuel + 1) startAfter items w =
        some (Run.indexOutOfRange,
          { store := (B.bsList startAfter "" 0 w.store).2
            calls := w.calls ++ [Call.bsList startAfter "" 0] })) := by
  refine ⟨?_, ?_, ?_, ?_⟩
  · intro hpre fuel w w1 hcon
    have hloop := ListBuckets_loop_in_bounds B hpre fuel "" [] w
    unfold ListBuckets at hcon
    cases hr : ListBuckets.loop B fuel "" [] w with
    | none => simp [hr] at hcon
    | some r =>
      obtain ⟨run, w2⟩ := r
      cases run with
      | indexOutOfRange => exact hloop w2 hr
      | returned a =>
        obtain ⟨items, e⟩ := a
        cases e <;> simp [hr] at hcon
  · intro fuel startAfter items w herr hmore
    simp [ListBuckets.loop, Backend.callList, herr, hmore]
  · intro fuel startAfter items w err herr
    simp [ListBuckets.loop, Backend.callList, herr]
  · intro fuel startAfter items w herr hmore hnil
    simp [ListBuckets.loop, Backend.callList, herr, hmore, hnil]

/-- The bucket listing of the paged in-memory backend answers no empty page
with `more` true. -/
theorem pagedBackend_pages (sa : String) (st : MemStore) :
    (pagedBackend.bsList sa "" 0 st).1.2.2 = none →
    (pagedBackend.bsList sa "" 0 st).1.2.1 = true →
    (pagedBackend.bsList sa "" 0 st).1.1 ≠ [] := by
  intro _ hmore hnil
  simp only [pagedBackend, decide_eq_true_eq] at hmore hnil
  rw [List.take_eq_nil_iff] at hnil
  rcases hnil with h | h
  · omega
  · rw [h] at hmore
    simp at hmore

/-- C18, on the paged bucket listing of the in-memory backend with three
buckets: `ListBuckets` does not index out of range. -/
theorem ListBuckets_index_in_bounds_witness :
    ListBuckets pagedBackend 3 threeBuckets ≠ some (Run.indexOutOfRange, threeBuckets) :=
  (ListBuckets_index_in_bounds pagedBackend).1 pagedBackend_pages 3 threeBuckets threeBuckets

end miniogw
